import Mathlib

/-!
# dublinbikes: the authenticated trip client

A shallow embedding of `client/client.go` and theorems about it.

Conventions of the embedding.

* A Go `string` is a byte sequence. It is modelled by the Lean `String` that has one
  character per byte; only the byte-level functions of `net/url` look inside strings.
* A method with a pointer receiver that returns `error` becomes a function from the
  session and the log of requests issued so far to a `Ret`: the returned value or error,
  the session after the call, and the log after the call.
* `(nil, err)` and `("", err)` are `Except.error`; `(v, nil)` is `Except.ok v`.
* The network is a `Transport`: what `http.Client.Do` answers to a request, given the
  requests issued before it. Theorems quantify over every transport.
* The parts of the Go standard library whose result the program only tests for failure
  (`url.Parse`, the syntax layer of `encoding/json`, `json.Marshal`, Unicode case folding
  of object keys) are the fields of a `Stdlib`, over which theorems quantify as well.
  `goStdlib` is an executable instance used to evaluate the program on concrete inputs.
* The `fmt.Printf` diagnostics of `NewDublinBikesClient` are not modelled.
-/

namespace DublinBikes

/-! ## Go values -/

/-- The least value of a Go `int` (64-bit platforms). -/
def minInt : Int := -9223372036854775808

/-- The greatest value of a Go `int` (64-bit platforms). -/
def maxInt : Int := 9223372036854775807

/-- A Go `int`. -/
abbrev GoInt : Type := { i : Int // minInt ≤ i ∧ i ≤ maxInt }

/-- The zero value of `int`. -/
def GoInt.zero : GoInt := ⟨0, by decide⟩

/-- The error values of `client.go`, one constructor per `fmt.Errorf` site (the text of
the wrapped library error is not modelled). -/
inductive Err where
  | marshal
  | createRequest
  | makeRequest
  | non200 (status : Nat)
  | unexpectedStatus (status : Nat)
  | readBody
  | unmarshal
  | noLocation
  | parseLocation
  | noCode
  | refreshing (inner : Err)
deriving DecidableEq, Repr

/-! ## JSON values, as `encoding/json` sees them -/

/-- A JSON number literal: `encoding/json` stores a number into an `int` by
`strconv.ParseInt` on the literal, which accepts exactly the literals without fraction
and exponent. -/
inductive JNumber where
  | int (i : Int)
  | real (lit : String)
deriving DecidableEq, Repr

/-- A JSON value; the members of an object are kept in document order, duplicates
included. -/
inductive JSON where
  | null
  | bool (b : Bool)
  | num (n : JNumber)
  | str (s : String)
  | arr (elems : List JSON)
  | obj (members : List (String × JSON))
deriving Repr

/-- The value of type `*url.URL`; the program reads only `RawQuery`. -/
structure URL where
  RawQuery : String
deriving DecidableEq, Repr

/-- The library functions the program calls and only tests for failure. -/
structure Stdlib where
  /-- Function `url.Parse`; `none` is a non-nil error. -/
  urlParse : String → Option URL
  /-- The scanner of `encoding/json`: `none` is a `SyntaxError`. -/
  jsonParse : String → Option JSON
  /-- Function `json.Marshal` on a `map[string]string`; `none` is a non-nil error. -/
  jsonMarshal : List (String × String) → Option String
  /-- Case-insensitive comparison of an object key with a field name. -/
  equalFold : String → String → Bool

/-! ## `net/http` -/

/-- The type `http.Header`, with canonical keys. -/
abbrev Header : Type := List (String × String)

/-- Method `Header.Set`. -/
def Header.Set (h : Header) (key value : String) : Header :=
  h.filter (fun kv => kv.1 ≠ key) ++ [(key, value)]

/-- Method `Header.Get`: the first value of the key, the empty string if there is none. -/
def Header.Get : Header → String → String
  | [], _ => ""
  | (k, v) :: h, key => if k = key then v else Header.Get h key

/-- An outgoing `http.Request`. -/
structure Request where
  Method : String
  URL : String
  Header : Header
  Body : Option String
deriving DecidableEq, Repr

/-- An `http.Response`; `Body = none` when `ioutil.ReadAll` fails. -/
structure Response where
  StatusCode : Nat
  Header : Header
  Body : Option String
deriving DecidableEq, Repr

/-- What `http.Client.Do` returns for a request, given the requests issued before it and
whether the client stops at the first redirect (`CheckRedirect` returning
`http.ErrUseLastResponse`); `none` is a non-nil error. -/
abbrev Transport : Type := List Request → Bool → Request → Option Response

/-- Function `http.NewRequest` for the methods `GET` and `POST`: it fails exactly when
`url.Parse` rejects the URL. The request keeps the URL as the text it was made from. -/
def NewRequest (L : Stdlib) (method url : String) (body : Option String) : Option Request :=
  match L.urlParse url with
  | none => none
  | some _ => some { Method := method, URL := url, Header := [], Body := body }

/-- Assignment `req.Header.Set(key, value)`. -/
def Request.setHeader (req : Request) (key value : String) : Request :=
  { req with Header := Header.Set req.Header key value }

/-! ## `net/url`: query escaping and query parsing -/

/-- Function `strings.Cut` for a one-byte separator, on the bytes of a string: the text
before the first separator and, when there is one, the text after it. -/
def cutChars (sep : Char) : List Char → List Char × Option (List Char)
  | [] => ([], none)
  | c :: cs =>
    if c = sep then ([], some cs)
    else ((c :: (cutChars sep cs).1), (cutChars sep cs).2)

/-- Function `ishex` of `net/url`. -/
def ishex (c : Char) : Bool :=
  ('0' ≤ c && c ≤ '9') || ('a' ≤ c && c ≤ 'f') || ('A' ≤ c && c ≤ 'F')

/-- Function `unhex` of `net/url`. -/
def unhex (c : Char) : Nat :=
  if '0' ≤ c && c ≤ '9' then c.toNat - 48
  else if 'a' ≤ c && c ≤ 'f' then c.toNat - 97 + 10
  else if 'A' ≤ c && c ≤ 'F' then c.toNat - 65 + 10
  else 0

/-- First pass of `unescape`: every `%` is followed by two hex digits. -/
def unescapeValid : List Char → Bool
  | [] => true
  | c :: cs =>
    if c = '%' then
      match cs with
      | a :: b :: rest => ishex a && ishex b && unescapeValid rest
      | _ => false
    else unescapeValid cs

/-- Second pass of `unescape` in mode `encodeQueryComponent`: `%XX` becomes the byte
`XX` and `+` becomes a space. -/
def unescapeBytes : List Char → List Char
  | [] => []
  | c :: cs =>
    if c = '%' then
      match cs with
      | a :: b :: rest => Char.ofNat (unhex a * 16 + unhex b) :: unescapeBytes rest
      | _ => []
    else if c = '+' then ' ' :: unescapeBytes cs
    else c :: unescapeBytes cs

/-- Function `url.QueryUnescape`; `none` is an `EscapeError`. -/
def QueryUnescape (s : String) : Option String :=
  if unescapeValid s.data then some ⟨unescapeBytes s.data⟩ else none

/-- Function `shouldEscape` in mode `encodeQueryComponent`: everything but the unreserved
characters is escaped. -/
def shouldEscape (c : Char) : Bool :=
  !(('a' ≤ c && c ≤ 'z') || ('A' ≤ c && c ≤ 'Z') || ('0' ≤ c && c ≤ '9')
    || c = '-' || c = '_' || c = '.' || c = '~')

/-- The table `upperhex`. -/
def upperhex (n : Nat) : Char :=
  "0123456789ABCDEF".data.getD n '0'

/-- Function `url.QueryEscape`. -/
def QueryEscape (s : String) : String :=
  ⟨s.data.flatMap (fun c =>
    if c = ' ' then ['+']
    else if shouldEscape c then ['%', upperhex (c.toNat / 16 % 16), upperhex (c.toNat % 16)]
    else [c])⟩

/-- The text before the first `&` and the `&`-separated pieces after it. -/
def splitAmp : List Char → List Char × List (List Char)
  | [] => ([], [])
  | c :: cs =>
    if c = '&' then ([], (splitAmp cs).1 :: (splitAmp cs).2)
    else (c :: (splitAmp cs).1, (splitAmp cs).2)

/-- The `&`-separated settings of a raw query, in order: the successive values of `key`
in the loop of `parseQuery`. -/
def queryPieces (query : String) : List String :=
  ((splitAmp query.data).1 :: (splitAmp query.data).2).map String.mk

/-- One iteration of the loop of `parseQuery` in `net/url` (Go 1.17 and later): the pair
added to the `Values`, or `none` when the setting is skipped. A setting is skipped when
it contains a semicolon (`if strings.Contains(key, ";")`, the error
`invalid semicolon separator in query`, which `URL.Query` drops), when it is empty, and
when its key or its value is not validly escaped. Before Go 1.17 a semicolon separated
settings like `&`. -/
def parsePair (p : String) : Option (String × String) :=
  if ';' ∈ p.data then none
  else if p = "" then none
  else
    match QueryUnescape ⟨(cutChars '=' p.data).1⟩,
          QueryUnescape ⟨((cutChars '=' p.data).2).getD []⟩ with
    | some key, some value => some (key, value)
    | _, _ => none

/-- The greatest number of settings `parseQuery` accepts in one query: the default of
the `urlmaxqueryparams` setting of `net/url`. -/
def maxQueryParams : Nat := 10000

/-- Method `URL.Query`: `ParseQuery` on `RawQuery` with its error dropped. `parseQuery`
first counts the settings, `strings.Count(query, "&") + 1`, and when there are more than
`maxQueryParams` it returns its error before storing anything, so that `Query` is empty;
otherwise it runs its loop over the settings. The `url.Values` (a `map[string][]string`)
is represented by the list of its (key, value) pairs in the order they were appended. -/
def URL.Query (u : URL) : List (String × String) :=
  if maxQueryParams < u.RawQuery.data.count '&' + 1 then []
  else (queryPieces u.RawQuery).filterMap parsePair

/-- Method `Values.Get`: the first value appended under the key, `""` if there is none. -/
def Values.Get : List (String × String) → String → String
  | [], _ => ""
  | (k, v) :: vs, key => if k = key then v else Values.Get vs key

/-! ## `encoding/json`: decoding into the program's structs -/

/-- An exported struct field with its `json` tag name, its kind, and how to assign it. -/
inductive Field (T : Type) where
  | string (name : String) (set : T → String → T)
  | int (name : String) (set : T → GoInt → T)
  | bool (name : String) (set : T → Bool → T)

/-- The `json` name of a field. -/
def Field.name {T : Type} : Field T → String
  | .string n _ => n
  | .int n _ => n
  | .bool n _ => n

/-- Whether `encoding/json` stores the value into a field of this kind without an
`UnmarshalTypeError`: `null` is accepted by every kind (and ignored), otherwise the JSON
type must be the one of the field, and an `int` takes an integer literal in range. -/
def Field.accepts {T : Type} : Field T → JSON → Bool
  | _, .null => true
  | .string _ _, .str _ => true
  | .int _ _, .num (.int i) => decide (minInt ≤ i ∧ i ≤ maxInt)
  | .bool _ _, .bool _ => true
  | _, _ => false

/-- Storing a JSON value into a struct field: the struct afterwards, and whether an
`UnmarshalTypeError` was saved (the field is then left as it was). -/
def Field.store {T : Type} (f : Field T) (v : JSON) (x : T) : T × Bool :=
  match f, v with
  | _, .null => (x, false)
  | .string _ set, .str s => (set x s, false)
  | .int _ set, .num (.int i) =>
    if h : minInt ≤ i ∧ i ≤ maxInt then (set x ⟨i, h⟩, false) else (x, true)
  | .bool _ set, .bool b => (set x b, false)
  | _, _ => (x, true)

/-- The field an object key is stored into: the field of exactly that name, otherwise
the first field whose name equals the key up to case. -/
def findField {T : Type} (L : Stdlib) (fields : List (Field T)) (key : String) :
    Option (Field T) :=
  match fields.find? (fun f => f.name == key) with
  | some f => some f
  | none => fields.find? (fun f => L.equalFold f.name key)

/-- Decoding the members of a JSON object into a struct, in document order: unknown
keys are skipped, a type error is saved and decoding goes on. -/
def decodeObject {T : Type} (L : Stdlib) (fields : List (Field T)) :
    List (String × JSON) → T → T × Bool
  | [], x => (x, false)
  | (key, v) :: ms, x =>
    match findField L fields key with
    | none => decodeObject L fields ms x
    | some f =>
      ((decodeObject L fields ms (f.store v x).1).1,
       (f.store v x).2 || (decodeObject L fields ms (f.store v x).1).2)

/-- Decoding a JSON value into a struct: `null` has no effect, an object is decoded
member by member, anything else is an `UnmarshalTypeError`. -/
def decodeValue {T : Type} (L : Stdlib) (fields : List (Field T)) (v : JSON) (x : T) :
    T × Bool :=
  match v with
  | .null => (x, false)
  | .obj ms => decodeObject L fields ms x
  | _ => (x, true)

/-- Call `json.Unmarshal(data, &x)` for a struct `x`: the struct afterwards and whether
the returned error is non-nil. Invalid syntax is reported before anything is stored. -/
def jsonUnmarshal {T : Type} (L : Stdlib) (fields : List (Field T)) (data : String)
    (x : T) : T × Bool :=
  match L.jsonParse data with
  | none => (x, true)
  | some v => decodeValue L fields v x

/-- Call `json.Unmarshal(data, &xs)` for a nil slice `xs` of structs: the slice
afterwards and whether the returned error is non-nil. `null` leaves the slice nil, an
array yields one element per array element (each decoded into a zero struct), anything
else is an `UnmarshalTypeError`. A nil slice and an empty slice are both `[]`. -/
def jsonUnmarshalSlice {T : Type} (L : Stdlib) (fields : List (Field T)) (zero : T)
    (data : String) : List T × Bool :=
  match L.jsonParse data with
  | none => ([], true)
  | some .null => ([], false)
  | some (.arr elems) =>
    (elems.map (fun e => (decodeValue L fields e zero).1),
     elems.any (fun e => (decodeValue L fields e zero).2))
  | some _ => ([], true)

/-! ## The session and the wire formats (`client.go`) -/

/-- The struct `DublinBikesClient`: the session. -/
structure DublinBikesClient where
  accountID : String
  accountEmail : String
  accountPassword : String
  accessToken : String
  refreshToken : String
  oauthOAuthRefreshToken : String
  oauthIDToken : String
  oauthExpiresIn : GoInt
  oauthScope : String
  oauthTokenType : String
deriving DecidableEq, Repr

/-- The struct `ClientTokensResponse`. -/
structure ClientTokensResponse where
  RefreshToken : String
  AccessToken : String
deriving DecidableEq, Repr

/-- The zero value of `ClientTokensResponse`. -/
def ClientTokensResponse.zero : ClientTokensResponse := ⟨"", ""⟩

/-- The fields of `ClientTokensResponse` with their `json` tags. -/
def ClientTokensResponse.fields : List (Field ClientTokensResponse) :=
  [.string "refreshToken" (fun r v => { r with RefreshToken := v }),
   .string "accessToken" (fun r v => { r with AccessToken := v })]

/-- The struct `TokenResponse`. -/
structure TokenResponse where
  AccessToken : String
  TokenType : String
  RefreshToken : String
  ExpiresIn : GoInt
  Scope : String
  IDToken : String
deriving DecidableEq, Repr

/-- The zero value of `TokenResponse`. -/
def TokenResponse.zero : TokenResponse := ⟨"", "", "", GoInt.zero, "", ""⟩

/-- The fields of `TokenResponse` with their `json` tags. -/
def TokenResponse.fields : List (Field TokenResponse) :=
  [.string "access_token" (fun r v => { r with AccessToken := v }),
   .string "token_type" (fun r v => { r with TokenType := v }),
   .string "refresh_token" (fun r v => { r with RefreshToken := v }),
   .int "expires_in" (fun r v => { r with ExpiresIn := v }),
   .string "scope" (fun r v => { r with Scope := v }),
   .string "id_token" (fun r v => { r with IDToken := v })]

/-- The struct `Trip`. -/
structure Trip where
  ID : String
  MovementRef : String
  SubscriptionID : String
  SubscriptionRef : String
  ContractName : String
  AccountID : String
  Status : String
  BikeNumber : GoInt
  StartDateTime : String
  StartStation : GoInt
  EndDateTime : String
  EndStation : GoInt
  StartStand : GoInt
  EndStand : GoInt
  Duration : GoInt
  RewardsEarned : GoInt
  RewardsSpent : GoInt
  Price : GoInt
  Discount : GoInt
  ReducedPrice : GoInt
  Litigious : Bool
  IsSpecial : Bool
  IsRated : Bool
deriving DecidableEq, Repr

/-- The zero value of `Trip`. -/
def Trip.zero : Trip :=
  { ID := "", MovementRef := "", SubscriptionID := "", SubscriptionRef := "",
    ContractName := "", AccountID := "", Status := "", BikeNumber := GoInt.zero,
    StartDateTime := "", StartStation := GoInt.zero, EndDateTime := "",
    EndStation := GoInt.zero, StartStand := GoInt.zero, EndStand := GoInt.zero,
    Duration := GoInt.zero, RewardsEarned := GoInt.zero, RewardsSpent := GoInt.zero,
    Price := GoInt.zero, Discount := GoInt.zero, ReducedPrice := GoInt.zero,
    Litigious := false, IsSpecial := false, IsRated := false }

/-- The fields of `Trip` with their `json` tags. -/
def Trip.fields : List (Field Trip) :=
  [.string "id" (fun r v => { r with ID := v }),
   .string "movementRef" (fun r v => { r with MovementRef := v }),
   .string "subscriptionId" (fun r v => { r with SubscriptionID := v }),
   .string "subscriptionRef" (fun r v => { r with SubscriptionRef := v }),
   .string "contractName" (fun r v => { r with ContractName := v }),
   .string "accountId" (fun r v => { r with AccountID := v }),
   .string "status" (fun r v => { r with Status := v }),
   .int "bikeNumber" (fun r v => { r with BikeNumber := v }),
   .string "startDateTime" (fun r v => { r with StartDateTime := v }),
   .int "startStation" (fun r v => { r with StartStation := v }),
   .string "endDateTime" (fun r v => { r with EndDateTime := v }),
   .int "endStation" (fun r v => { r with EndStation := v }),
   .int "startStand" (fun r v => { r with StartStand := v }),
   .int "endStand" (fun r v => { r with EndStand := v }),
   .int "duration" (fun r v => { r with Duration := v }),
   .int "rewardsEarned" (fun r v => { r with RewardsEarned := v }),
   .int "rewardsSpent" (fun r v => { r with RewardsSpent := v }),
   .int "price" (fun r v => { r with Price := v }),
   .int "discount" (fun r v => { r with Discount := v }),
   .int "reducedPrice" (fun r v => { r with ReducedPrice := v }),
   .bool "litigious" (fun r v => { r with Litigious := v }),
   .bool "isSpecial" (fun r v => { r with IsSpecial := v }),
   .bool "isRated" (fun r v => { r with IsRated := v })]

/-- What a method leaves behind: its returned value or error, the session after the
call, and the requests handed to `http.Client.Do` so far, oldest first. -/
structure Ret (α : Type) where
  result : Except Err α
  client : DublinBikesClient
  log : List Request

/-! ## The operations (`client.go`) -/

/-- The redirect URI sent in steps 2 and 3. -/
def redirectURI : String := "https://www.dublinbikes.ie/openid_connect_login"

/-- The URL requested by `generateClientTokens`. -/
def clientTokensURL : String :=
  "https://api.cyclocity.fr/auth/environments/PRD/client_tokens"

/-- The map `generateClientTokens` posts. -/
def clientTokensData : List (String × String) :=
  [("code", "vls.web.dublin:PRD"),
   ("key", "0398667a307bbd0d8258a8c9b81dc11657aacae406a1b406a6b26b26ecc7f60e")]

/-- Method `generateClientTokens` (step 1). -/
def generateClientTokens (L : Stdlib) (t : Transport) (client : DublinBikesClient)
    (log : List Request) : Ret Unit :=
  let url := clientTokensURL
  let data := clientTokensData
  match L.jsonMarshal data with
  | none => ⟨.error .marshal, client, log⟩
  | some jsonData =>
    match NewRequest L "POST" url (some jsonData) with
    | none => ⟨.error .createRequest, client, log⟩
    | some req0 =>
      let req := req0.setHeader "Content-Type" "application/json"
      match t log false req with
      | none => ⟨.error .makeRequest, client, log ++ [req]⟩
      | some resp =>
        if resp.StatusCode ≠ 200 then
          ⟨.error (.non200 resp.StatusCode), client, log ++ [req]⟩
        else
          match resp.Body with
          | none => ⟨.error .readBody, client, log ++ [req]⟩
          | some body =>
            let authResp := jsonUnmarshal L ClientTokensResponse.fields body
              ClientTokensResponse.zero
            if authResp.2 then ⟨.error .unmarshal, client, log ++ [req]⟩
            else
              ⟨.ok (),
               { client with
                   accessToken := authResp.1.AccessToken
                   refreshToken := authResp.1.RefreshToken },
               log ++ [req]⟩

/-- The URL requested by `login`. -/
def loginURL (client : DublinBikesClient) : String :=
  "https://api.cyclocity.fr/identities/users/login?takn=" ++ client.accessToken
    ++ "&email=" ++ QueryEscape client.accountEmail
    ++ "&password=" ++ QueryEscape client.accountPassword
    ++ "&redirect_uri=" ++ QueryEscape redirectURI

/-- Method `login` (step 2); the HTTP client stops at the first redirect. -/
def login (L : Stdlib) (t : Transport) (client : DublinBikesClient)
    (log : List Request) : Ret String :=
  match NewRequest L "GET" (loginURL client) none with
  | none => ⟨.error .createRequest, client, log⟩
  | some req =>
    match t log true req with
    | none => ⟨.error .makeRequest, client, log ++ [req]⟩
    | some resp =>
      if resp.StatusCode ≠ 302 then
        ⟨.error (.unexpectedStatus resp.StatusCode), client, log ++ [req]⟩
      else
        let locationHeader := Header.Get resp.Header "Location"
        if locationHeader = "" then ⟨.error .noLocation, client, log ++ [req]⟩
        else
          match L.urlParse locationHeader with
          | none => ⟨.error .parseLocation, client, log ++ [req]⟩
          | some locationURL =>
            let code := Values.Get locationURL.Query "code"
            if code = "" then ⟨.error .noCode, client, log ++ [req]⟩
            else ⟨.ok code, client, log ++ [req]⟩

/-- The URL requested by `exchangeCodeForToken`. -/
def tokenURL (code : String) : String :=
  "https://api.cyclocity.fr/identities/token?grant_type=authorization_code&code="
    ++ QueryEscape code ++ "&redirect_uri=" ++ QueryEscape redirectURI

/-- Method `exchangeCodeForToken` (step 3). -/
def exchangeCodeForToken (L : Stdlib) (t : Transport) (code : String)
    (client : DublinBikesClient) (log : List Request) : Ret Unit :=
  match NewRequest L "POST" (tokenURL code) (some "\x7b\x7d") with
  | none => ⟨.error .createRequest, client, log⟩
  | some req0 =>
    let req := (req0.setHeader "Authorization" ("Taknv1 " ++ client.accessToken)).setHeader
      "Content-Type" "application/json"
    match t log false req with
    | none => ⟨.error .makeRequest, client, log ++ [req]⟩
    | some resp =>
      if resp.StatusCode ≠ 200 then
        ⟨.error (.non200 resp.StatusCode), client, log ++ [req]⟩
      else
        match resp.Body with
        | none => ⟨.error .readBody, client, log ++ [req]⟩
        | some body =>
          let tokenResp := jsonUnmarshal L TokenResponse.fields body TokenResponse.zero
          if tokenResp.2 then ⟨.error .unmarshal, client, log ++ [req]⟩
          else
            ⟨.ok (),
             { client with
                 accessToken := tokenResp.1.AccessToken
                 oauthOAuthRefreshToken := tokenResp.1.RefreshToken
                 oauthIDToken := tokenResp.1.IDToken
                 oauthExpiresIn := tokenResp.1.ExpiresIn
                 oauthScope := tokenResp.1.Scope
                 oauthTokenType := tokenResp.1.TokenType },
             log ++ [req]⟩

/-- The URL requested by `RefreshAccessToken`. -/
def refreshURL : String := "https://api.cyclocity.fr/auth/access_tokens"

/-- Method `RefreshAccessToken` (step 4, and the first thing `GetTrips` does). -/
def RefreshAccessToken (L : Stdlib) (t : Transport) (client : DublinBikesClient)
    (log : List Request) : Ret Unit :=
  let url := refreshURL
  let data := [("refreshToken", client.refreshToken)]
  match L.jsonMarshal data with
  | none => ⟨.error .marshal, client, log⟩
  | some jsonData =>
    match NewRequest L "POST" url (some jsonData) with
    | none => ⟨.error .createRequest, client, log⟩
    | some req0 =>
      let req := req0.setHeader "Content-Type" "application/json"
      match t log false req with
      | none => ⟨.error .makeRequest, client, log ++ [req]⟩
      | some resp =>
        if resp.StatusCode ≠ 200 then
          ⟨.error (.non200 resp.StatusCode), client, log ++ [req]⟩
        else
          match resp.Body with
          | none => ⟨.error .readBody, client, log ++ [req]⟩
          | some body =>
            let tokenResp := jsonUnmarshal L ClientTokensResponse.fields body
              ClientTokensResponse.zero
            if tokenResp.2 then ⟨.error .unmarshal, client, log ++ [req]⟩
            else
              ⟨.ok (), { client with accessToken := tokenResp.1.AccessToken },
               log ++ [req]⟩

/-- The URL requested by `GetTrips`. -/
def tripsURL (client : DublinBikesClient) : String :=
  "https://api.cyclocity.fr/contracts/dublin/accounts/" ++ client.accountID ++ "/trips"

/-- The part of `GetTrips` after the refresh (from `url := fmt.Sprintf(...)` to the end
of the method): the trips request and the decoding of its answer. -/
def fetchTrips (L : Stdlib) (t : Transport) (client : DublinBikesClient)
    (log : List Request) : Ret (List Trip) :=
  match NewRequest L "GET" (tripsURL client) none with
  | none => ⟨.error .createRequest, client, log⟩
  | some req0 =>
    let req := ((req0.setHeader "Identity" client.oauthIDToken).setHeader
      "Authorization" ("Taknv1 " ++ client.accessToken)).setHeader
      "Accept" "application/json, text/plain, */*"
    match t log false req with
    | none => ⟨.error .makeRequest, client, log ++ [req]⟩
    | some resp =>
      if resp.StatusCode ≠ 200 then
        ⟨.error (.non200 resp.StatusCode), client, log ++ [req]⟩
      else
        match resp.Body with
        | none => ⟨.error .readBody, client, log ++ [req]⟩
        | some body =>
          let trips := jsonUnmarshalSlice L Trip.fields Trip.zero body
          if trips.2 then ⟨.error .unmarshal, client, log ++ [req]⟩
          else ⟨.ok trips.1, client, log ++ [req]⟩

/-- Method `GetTrips` (step 5). -/
def GetTrips (L : Stdlib) (t : Transport) (client : DublinBikesClient)
    (log : List Request) : Ret (List Trip) :=
  let r := RefreshAccessToken L t client log
  match r.result with
  | .error err => ⟨.error (.refreshing err), r.client, r.log⟩
  | .ok _ => fetchTrips L t r.client r.log

/-- The session `NewDublinBikesClient` starts from: the three arguments, every other
field at its zero value. -/
def initialClient (account_id email password : String) : DublinBikesClient :=
  { accountID := account_id, accountEmail := email, accountPassword := password,
    accessToken := "", refreshToken := "", oauthOAuthRefreshToken := "",
    oauthIDToken := "", oauthExpiresIn := GoInt.zero, oauthScope := "",
    oauthTokenType := "" }

/-- Function `NewDublinBikesClient`: the returned pointer (or the error) and the log of
requests afterwards. -/
def NewDublinBikesClient (L : Stdlib) (t : Transport) (account_id email password : String)
    (log : List Request) : Except Err DublinBikesClient × List Request :=
  let bikeclient := initialClient account_id email password
  let r1 := generateClientTokens L t bikeclient log
  match r1.result with
  | .error err => (.error err, r1.log)
  | .ok _ =>
    let r2 := login L t r1.client r1.log
    match r2.result with
    | .error err => (.error err, r2.log)
    | .ok code =>
      let r3 := exchangeCodeForToken L t code r2.client r2.log
      match r3.result with
      | .error err => (.error err, r3.log)
      | .ok _ =>
        let r4 := RefreshAccessToken L t r3.client r3.log
        match r4.result with
        | .error err => (.error err, r4.log)
        | .ok _ => (.ok r4.client, r4.log)

/-! ## The requests of the five endpoints -/

/-- The request `generateClientTokens` hands to the HTTP client, `jsonData` being the
marshalled map. -/
def clientTokensRequest (jsonData : String) : Request :=
  { Method := "POST", URL := clientTokensURL,
    Header := [("Content-Type", "application/json")], Body := some jsonData }

/-- The request `login` hands to the HTTP client. -/
def loginRequest (client : DublinBikesClient) : Request :=
  { Method := "GET", URL := loginURL client, Header := [], Body := none }

/-- The request `exchangeCodeForToken` hands to the HTTP client. -/
def tokenRequest (client : DublinBikesClient) (code : String) : Request :=
  { Method := "POST", URL := tokenURL code,
    Header := [("Authorization", "Taknv1 " ++ client.accessToken),
      ("Content-Type", "application/json")],
    Body := some "\x7b\x7d" }

/-- The request `RefreshAccessToken` hands to the HTTP client, `jsonData` being the
marshalled map. -/
def refreshRequest (jsonData : String) : Request :=
  { Method := "POST", URL := refreshURL,
    Header := [("Content-Type", "application/json")], Body := some jsonData }

/-- The trips request `GetTrips` hands to the HTTP client. -/
def tripsRequest (client : DublinBikesClient) : Request :=
  { Method := "GET", URL := tripsURL client,
    Header := [("Identity", client.oauthIDToken),
      ("Authorization", "Taknv1 " ++ client.accessToken),
      ("Accept", "application/json, text/plain, */*")],
    Body := none }

/-! ## An executable instance of the library functions -/

/-- Function `stringContainsCTLByte`. -/
def stringContainsCTLByte (cs : List Char) : Bool :=
  cs.any (fun c => c.toNat < 32 || c.toNat = 127)

/-- Function `getScheme` of `net/url`, at byte `i` of `raw` with `cs` left to read: the
scheme and the rest, or `none` for the error `missing protocol scheme`. -/
def getSchemeFrom (raw : List Char) : Nat → List Char → Option (List Char × List Char)
  | _, [] => some ([], raw)
  | i, c :: cs =>
    if ('a' ≤ c && c ≤ 'z') || ('A' ≤ c && c ≤ 'Z') then getSchemeFrom raw (i + 1) cs
    else if ('0' ≤ c && c ≤ '9') || c = '+' || c = '-' || c = '.' then
      if i = 0 then some ([], raw) else getSchemeFrom raw (i + 1) cs
    else if c = ':' then
      if i = 0 then none else some (raw.take i, cs)
    else some ([], raw)

/-- The bytes `unescape` accepts unescaped in mode `encodeHost` (all bytes from 0x80 on
are accepted). -/
def hostByteOK (c : Char) : Bool :=
  128 ≤ c.toNat || ('a' ≤ c && c ≤ 'z') || ('A' ≤ c && c ≤ 'Z') || ('0' ≤ c && c ≤ '9')
    || "!$&()*+,;=:[]<>\"-_.~%".data.contains c || c.toNat = 39

/-- Function `validOptionalPort`. -/
def validOptionalPort : List Char → Bool
  | [] => true
  | c :: cs => c = ':' && cs.all (fun d => '0' ≤ d && d ≤ '9')

/-- The text from the last `:` on, empty when there is no colon. -/
def fromLastColon : List Char → List Char
  | [] => []
  | c :: cs =>
    if cs.contains ':' then fromLastColon cs
    else if c = ':' then c :: cs else []

/-- The check `parseHost` makes on a host that is not an IP literal in brackets: a valid
optional port after the last colon, only host bytes, and only `%25` or escapes of
non-ASCII bytes. -/
def hostEscapesOK : List Char → Bool
  | [] => true
  | c :: cs =>
    if c = '%' then
      match cs with
      | a :: b :: rest =>
        ishex a && ishex b && (8 ≤ unhex a || (a = '2' && b = '5')) && hostEscapesOK rest
      | _ => false
    else hostByteOK c && hostEscapesOK cs

/-- Function `url.Parse` of the instance. It follows `net/url` on control bytes, the
fragment, the scheme, the query, the colon in a first relative segment, the host and its
port, and the escapes of the path; user information and bracketed IP literals are not
checked further. -/
def goURLParse (rawURL : String) : Option URL :=
  let u := (cutChars '#' rawURL.data).1
  let frag := ((cutChars '#' rawURL.data).2).getD []
  if stringContainsCTLByte u then none
  else if u = ['*'] then (if unescapeValid frag then some ⟨""⟩ else none)
  else
    match getSchemeFrom u 0 u with
    | none => none
    | some (scheme, rest0) =>
      let rest := (cutChars '?' rest0).1
      let rawQuery := ((cutChars '?' rest0).2).getD []
      let url : URL := ⟨String.mk rawQuery⟩
      if rest.head? ≠ some '/' then
        if scheme ≠ [] then (if unescapeValid frag then some url else none)
        else if ((cutChars '/' rest).1).contains ':' then none
        else if unescapeValid rest && unescapeValid frag then some url else none
      else if rest.take 2 = ['/', '/'] && (scheme ≠ [] || rest.take 3 ≠ ['/', '/', '/']) then
        let authority := (cutChars '/' (rest.drop 2)).1
        let path := rest.drop (2 + authority.length)
        let host := match (cutChars '@' authority.reverse).2 with
          | none => authority
          | some _ => ((cutChars '@' authority.reverse).1).reverse
        if host.head? = some '[' then
          (if host.contains ']' && unescapeValid path && unescapeValid frag then some url
           else none)
        else if validOptionalPort (fromLastColon host) && hostEscapesOK host
            && unescapeValid path && unescapeValid frag then some url
        else none
      else if unescapeValid rest && unescapeValid frag then some url else none

/-- Skipping JSON white space. -/
def skipWs : List Char → List Char
  | [] => []
  | c :: cs => if c = ' ' || c = '\t' || c = '\n' || c = '\r' then skipWs cs else c :: cs

/-- The UTF-8 bytes of a code point. -/
def utf8Bytes (cp : Nat) : List Char :=
  if cp < 128 then [Char.ofNat cp]
  else if cp < 2048 then [Char.ofNat (192 + cp / 64), Char.ofNat (128 + cp % 64)]
  else if cp < 65536 then
    [Char.ofNat (224 + cp / 4096), Char.ofNat (128 + cp / 64 % 64), Char.ofNat (128 + cp % 64)]
  else
    [Char.ofNat (240 + cp / 262144), Char.ofNat (128 + cp / 4096 % 64),
     Char.ofNat (128 + cp / 64 % 64), Char.ofNat (128 + cp % 64)]

/-- Four hex digits as a number. -/
def hex4 (a b c d : Char) : Option Nat :=
  if ishex a && ishex b && ishex c && ishex d then
    some (((unhex a * 16 + unhex b) * 16 + unhex c) * 16 + unhex d)
  else none

/-- The rest of a JSON string after its opening quote, read with at most `fuel` steps:
the decoded bytes and the text after the closing quote. A lone surrogate escape decodes
to U+FFFD. -/
def scanStringFuel : Nat → List Char → Option (List Char × List Char)
  | 0, _ => none
  | _, [] => none
  | fuel + 1, c :: cs =>
    if c = '"' then some ([], cs)
    else if c.toNat < 32 then none
    else if c = '\\' then
      match cs with
      | 'u' :: a :: b :: x :: d :: rest =>
        match hex4 a b x d with
        | none => none
        | some hi =>
          if 55296 ≤ hi && hi < 56320 then
            match rest with
            | '\\' :: 'u' :: a2 :: b2 :: x2 :: d2 :: rest2 =>
              match hex4 a2 b2 x2 d2 with
              | none => none
              | some lo =>
                if 56320 ≤ lo && lo < 57344 then
                  (scanStringFuel fuel rest2).map (fun r =>
                    (utf8Bytes (65536 + (hi - 55296) * 1024 + (lo - 56320)) ++ r.1, r.2))
                else (scanStringFuel fuel rest).map (fun r => (utf8Bytes 65533 ++ r.1, r.2))
            | _ => (scanStringFuel fuel rest).map (fun r => (utf8Bytes 65533 ++ r.1, r.2))
          else if 56320 ≤ hi && hi < 57344 then
            (scanStringFuel fuel rest).map (fun r => (utf8Bytes 65533 ++ r.1, r.2))
          else (scanStringFuel fuel rest).map (fun r => (utf8Bytes hi ++ r.1, r.2))
      | e :: rest =>
        let put := fun (b : Char) => (scanStringFuel fuel rest).map (fun r => (b :: r.1, r.2))
        if e = '"' || e = '\\' || e = '/' then put e
        else if e = 'b' then put (Char.ofNat 8)
        else if e = 'f' then put (Char.ofNat 12)
        else if e = 'n' then put '\n'
        else if e = 'r' then put '\r'
        else if e = 't' then put '\t'
        else none
      | [] => none
    else (scanStringFuel fuel cs).map (fun r => (c :: r.1, r.2))

/-- The rest of a JSON string after its opening quote. -/
def scanString (cs : List Char) : Option (List Char × List Char) :=
  scanStringFuel (cs.length + 1) cs

/-- The leading decimal digits of a text and the rest. -/
def spanDigits : List Char → List Char × List Char
  | [] => ([], [])
  | c :: cs =>
    if '0' ≤ c && c ≤ '9' then (c :: (spanDigits cs).1, (spanDigits cs).2) else ([], c :: cs)

/-- The value of a sequence of decimal digits. -/
def digitsValue (ds : List Char) : Nat :=
  ds.foldl (fun n d => n * 10 + (d.toNat - 48)) 0

/-- A JSON number literal at the start of a text. -/
def scanNumber (cs : List Char) : Option (JNumber × List Char) :=
  let neg := cs.head? = some '-'
  let cs1 := if neg then cs.drop 1 else cs
  let ip := spanDigits cs1
  if ip.1 = [] || (ip.1.head? = some '0' && ip.1.length ≠ 1) then none
  else
    let fr : Option (List Char × List Char) :=
      match ip.2 with
      | '.' :: r => if (spanDigits r).1 = [] then none
          else some ('.' :: (spanDigits r).1, (spanDigits r).2)
      | r => some ([], r)
    match fr with
    | none => none
    | some (frac, r1) =>
      let ex : Option (List Char × List Char) :=
        match r1 with
        | e :: r =>
          if e = 'e' || e = 'E' then
            let sgn := if r.head? = some '+' || r.head? = some '-' then r.take 1 else []
            let r2 := r.drop sgn.length
            if (spanDigits r2).1 = [] then none
            else some (e :: sgn ++ (spanDigits r2).1, (spanDigits r2).2)
          else some ([], r1)
        | [] => some ([], [])
      match ex with
      | none => none
      | some (exp, r3) =>
        if frac = [] && exp = [] then
          some (.int (if neg then -(digitsValue ip.1 : Int) else digitsValue ip.1), r3)
        else
          some (.real (String.mk ((if neg then ['-'] else []) ++ ip.1 ++ frac ++ exp)), r3)

mutual

/-- A JSON value at the start of a text (after white space) and the text after it. -/
def scanValue : Nat → List Char → Option (JSON × List Char)
  | 0, _ => none
  | fuel + 1, cs =>
    match skipWs cs with
    | [] => none
    | c :: rest =>
      if c = '"' then (scanString rest).map (fun r => (.str (String.mk r.1), r.2))
      else if c = '[' then
        match skipWs rest with
        | ']' :: r => some (.arr [], r)
        | _ => (scanElems fuel rest).map (fun r => (.arr r.1, r.2))
      else if c = '\x7b' then
        match skipWs rest with
        | '\x7d' :: r => some (.obj [], r)
        | _ => (scanMembers fuel rest).map (fun r => (.obj r.1, r.2))
      else if c = 't' then
        (if rest.take 3 = ['r', 'u', 'e'] then some (.bool true, rest.drop 3) else none)
      else if c = 'f' then
        (if rest.take 4 = ['a', 'l', 's', 'e'] then some (.bool false, rest.drop 4) else none)
      else if c = 'n' then
        (if rest.take 3 = ['u', 'l', 'l'] then some (.null, rest.drop 3) else none)
      else (scanNumber (c :: rest)).map (fun r => (.num r.1, r.2))

/-- The elements of a non-empty JSON array after its opening bracket. -/
def scanElems : Nat → List Char → Option (List JSON × List Char)
  | 0, _ => none
  | fuel + 1, cs =>
    match scanValue fuel cs with
    | none => none
    | some (v, r) =>
      match skipWs r with
      | ',' :: r2 => (scanElems fuel r2).map (fun q => (v :: q.1, q.2))
      | ']' :: r2 => some ([v], r2)
      | _ => none

/-- The members of a non-empty JSON object after its opening brace. -/
def scanMembers : Nat → List Char → Option (List (String × JSON) × List Char)
  | 0, _ => none
  | fuel + 1, cs =>
    match skipWs cs with
    | '"' :: r0 =>
      match scanString r0 with
      | none => none
      | some (key, r1) =>
        match skipWs r1 with
        | ':' :: r2 =>
          match scanValue fuel r2 with
          | none => none
          | some (v, r3) =>
            match skipWs r3 with
            | ',' :: r4 => (scanMembers fuel r4).map (fun q => ((String.mk key, v) :: q.1, q.2))
            | '\x7d' :: r4 => some ([(String.mk key, v)], r4)
            | _ => none
        | _ => none
    | _ => none

end

/-- The scanner of `encoding/json` of the instance: one JSON value between white space.
It is meant for the ASCII bodies of the examples: bytes from 0x80 on are copied as they
are (`encoding/json` replaces invalid UTF-8 by U+FFFD), and nesting has no limit. -/
def goJSONParse (data : String) : Option JSON :=
  match scanValue (data.length + 1) data.data with
  | none => none
  | some (v, rest) => if skipWs rest = [] then some v else none

/-- The bytes of a string as `encoding/json` writes them inside quotes, after skipping
`skip` bytes (HTML-safe escaping; the line separators U+2028 and U+2029, three bytes
each, are escaped). -/
def marshalFrom : Nat → List Char → List Char
  | _, [] => []
  | skip + 1, _ :: cs => marshalFrom skip cs
  | 0, c :: cs =>
    if c = '"' || c = '\\' then '\\' :: c :: marshalFrom 0 cs
    else if c = '\n' then '\\' :: 'n' :: marshalFrom 0 cs
    else if c = '\r' then '\\' :: 'r' :: marshalFrom 0 cs
    else if c = '\t' then '\\' :: 't' :: marshalFrom 0 cs
    else if c.toNat < 32 || c = '<' || c = '>' || c = '&' then
      '\\' :: 'u' :: '0' :: '0' :: "0123456789abcdef".data.getD (c.toNat / 16) '0'
        :: "0123456789abcdef".data.getD (c.toNat % 16) '0' :: marshalFrom 0 cs
    else if c.toNat = 226 && (cs.take 2).map Char.toNat = [128, 168] then
      '\\' :: 'u' :: '2' :: '0' :: '2' :: '8' :: marshalFrom 2 cs
    else if c.toNat = 226 && (cs.take 2).map Char.toNat = [128, 169] then
      '\\' :: 'u' :: '2' :: '0' :: '2' :: '9' :: marshalFrom 2 cs
    else c :: marshalFrom 0 cs

/-- The bytes of a string as `encoding/json` writes them inside quotes. -/
def marshalBytes (cs : List Char) : List Char :=
  marshalFrom 0 cs

/-- Bytewise lexicographic order on keys. -/
def keyLess : List Char → List Char → Bool
  | _, [] => false
  | [], _ :: _ => true
  | a :: as, b :: bs => a.toNat < b.toNat || (a = b && keyLess as bs)

/-- Inserting an entry into a list of entries sorted by key. -/
def insertEntry (e : String × String) : List (String × String) → List (String × String)
  | [] => [e]
  | x :: xs => if keyLess e.1.data x.1.data then e :: x :: xs else x :: insertEntry e xs

/-- The members of a marshalled map, comma separated. -/
def marshalMembers : List (String × String) → List Char
  | [] => []
  | [e] => '"' :: marshalBytes e.1.data ++ '"' :: ':' :: '"' :: marshalBytes e.2.data ++ ['"']
  | e :: es =>
    '"' :: marshalBytes e.1.data ++ '"' :: ':' :: '"' :: marshalBytes e.2.data
      ++ '"' :: ',' :: marshalMembers es

/-- Function `json.Marshal` on a `map[string]string` given by its entries: keys in
sorted order; it never fails. It is meant for the ASCII maps of the examples: bytes from
0x80 on are copied as they are, and every control byte other than newline, carriage
return and tab is written as a `u00XX` escape. -/
def goJSONMarshal (data : List (String × String)) : Option String :=
  some (String.mk ('\x7b' :: marshalMembers (data.foldr insertEntry []) ++ ['\x7d']))

/-- Comparison up to the case of ASCII letters; the folding of letters outside ASCII
(`encoding/json` folds the Kelvin sign onto `k` and the long s onto `s`) is left out. -/
def goEqualFold (a b : String) : Bool :=
  a.data.map (fun c => if 'A' ≤ c && c ≤ 'Z' then Char.ofNat (c.toNat + 32) else c)
    = b.data.map (fun c => if 'A' ≤ c && c ≤ 'Z' then Char.ofNat (c.toNat + 32) else c)

/-- An executable instance of the library functions. -/
def goStdlib : Stdlib :=
  { urlParse := goURLParse, jsonParse := goJSONParse, jsonMarshal := goJSONMarshal,
    equalFold := goEqualFold }

/-- A transport that answers the n-th request issued with the n-th response of a script,
and fails when the script is exhausted. -/
def scripted (script : List Response) : Transport :=
  fun log _ _ => script.get? log.length

/-! ## Notions used in the statements -/

/-- One object member stored into the struct, the error flag accumulated: the body of
the loop of `decodeObject`. -/
def storeMember {T : Type} (L : Stdlib) (fields : List (Field T)) (s : T × Bool)
    (m : String × JSON) : T × Bool :=
  match findField L fields m.1 with
  | none => s
  | some f => ((f.store m.2 s.1).1, s.2 || (f.store m.2 s.1).2)

/-- A member `encoding/json` cannot store: its key names a field of the struct and its
value is not accepted by that field. -/
def memberMismatch {T : Type} (L : Stdlib) (fields : List (Field T)) (m : String × JSON) :
    Bool :=
  match findField L fields m.1 with
  | none => false
  | some f => !f.accepts m.2

/-- A JSON value that does not match a struct, as `encoding/json` judges it (it reports
an `UnmarshalTypeError`): a value that is neither `null` nor an object, or an object
with a member that cannot be stored. Members that are missing, unknown or `null` are no
mismatch. -/
def structMismatch {T : Type} (L : Stdlib) (fields : List (Field T)) : JSON → Bool
  | .null => false
  | .obj ms => ms.any (memberMismatch L fields)
  | _ => true

/-- A JSON value that does not match a slice of structs, as `encoding/json` judges it: a
value that is neither `null` nor an array, or an array with an element that does not
match the struct. -/
def sliceMismatch {T : Type} (L : Stdlib) (fields : List (Field T)) : JSON → Bool
  | .null => false
  | .arr es => es.any (structMismatch L fields)
  | _ => true

/-- A body that cannot be decoded: malformed JSON, or JSON that does not match the
target (as told by `mismatch`). -/
def badBody (L : Stdlib) (mismatch : JSON → Bool) (body : String) : Bool :=
  match L.jsonParse body with
  | none => true
  | some v => mismatch v

/-- The `Trip` an array element is decoded to: the zero `Trip` with the members of the
element stored into it. -/
def tripOf (L : Stdlib) (e : JSON) : Trip :=
  (decodeValue L Trip.fields e Trip.zero).1

/-- The JSON object that supplies every field of a `Trip`, in the order of the struct. -/
def Trip.toJSON (tr : Trip) : JSON :=
  .obj [("id", .str tr.ID), ("movementRef", .str tr.MovementRef),
    ("subscriptionId", .str tr.SubscriptionID), ("subscriptionRef", .str tr.SubscriptionRef),
    ("contractName", .str tr.ContractName), ("accountId", .str tr.AccountID),
    ("status", .str tr.Status), ("bikeNumber", .num (.int tr.BikeNumber.val)),
    ("startDateTime", .str tr.StartDateTime), ("startStation", .num (.int tr.StartStation.val)),
    ("endDateTime", .str tr.EndDateTime), ("endStation", .num (.int tr.EndStation.val)),
    ("startStand", .num (.int tr.StartStand.val)), ("endStand", .num (.int tr.EndStand.val)),
    ("duration", .num (.int tr.Duration.val)),
    ("rewardsEarned", .num (.int tr.RewardsEarned.val)),
    ("rewardsSpent", .num (.int tr.RewardsSpent.val)), ("price", .num (.int tr.Price.val)),
    ("discount", .num (.int tr.Discount.val)),
    ("reducedPrice", .num (.int tr.ReducedPrice.val)), ("litigious", .bool tr.Litigious),
    ("isSpecial", .bool tr.IsSpecial), ("isRated", .bool tr.IsRated)]

/-- A trip object: a JSON object each of whose members that names a field of `Trip`
carries a value of the type of that field. -/
def isTripObject (L : Stdlib) : JSON → Bool
  | .obj ms => !(ms.any (memberMismatch L Trip.fields))
  | _ => false

/-- Whether a setting of a raw query is a parameter named `code`, as `parseQuery` reads
it. -/
def isCodeParam (p : String) : Bool :=
  match parsePair p with
  | some kv => kv.1 = "code"
  | none => false

/-- What a step run from `log` may do with the network: it hands at most the request
`req` to the HTTP client, and it succeeds only if it handed it over and the answer had
the expected status; in particular it fails when it issues no request, when the request
is not answered, and when the answer has another status. -/
def StepSpec {α : Type} (t : Transport) (stop : Bool) (expected : Nat) (req : Request)
    (log : List Request) (r : Ret α) : Prop :=
  (r.log = log ∨ r.log = log ++ [req])
  ∧ (r.log = log → ∃ e, r.result = .error e)
  ∧ (t log stop req = none → ∃ e, r.result = .error e)
  ∧ (∀ resp, t log stop req = some resp → resp.StatusCode ≠ expected →
      ∃ e, r.result = .error e)

/-- The request of step 1. -/
def step1Request (L : Stdlib) : Request :=
  clientTokensRequest ((L.jsonMarshal clientTokensData).getD "")

/-- The request of step 4 and of the refresh in `GetTrips`, for a session. -/
def refreshRequestOf (L : Stdlib) (client : DublinBikesClient) : Request :=
  refreshRequest ((L.jsonMarshal [("refreshToken", client.refreshToken)]).getD "")

/-- The code a `login` run returned, `""` when it returned an error. -/
def codeOf (r : Ret String) : String :=
  match r.result with
  | .ok code => code
  | .error _ => ""

/-- Step 1 of the constructor run from `log`. -/
def step1 (L : Stdlib) (t : Transport) (account_id email password : String)
    (log : List Request) : Ret Unit :=
  generateClientTokens L t (initialClient account_id email password) log

/-- Step 2 run on what step 1 left. -/
def step2 (L : Stdlib) (t : Transport) (account_id email password : String)
    (log : List Request) : Ret String :=
  login L t (step1 L t account_id email password log).client
    (step1 L t account_id email password log).log

/-- Step 3 run on what step 2 left, with the code step 2 returned. -/
def step3 (L : Stdlib) (t : Transport) (account_id email password : String)
    (log : List Request) : Ret Unit :=
  exchangeCodeForToken L t (codeOf (step2 L t account_id email password log))
    (step2 L t account_id email password log).client
    (step2 L t account_id email password log).log

/-- Step 4 run on what step 3 left. -/
def step4 (L : Stdlib) (t : Transport) (account_id email password : String)
    (log : List Request) : Ret Unit :=
  RefreshAccessToken L t (step3 L t account_id email password log).client
    (step3 L t account_id email password log).log

/-- Two sessions that differ at most in the OAuth refresh token, the token type, the
scope and the expiry. -/
def sameButOAuthExtras (c1 c2 : DublinBikesClient) : Prop :=
  c1.accountID = c2.accountID ∧ c1.accountEmail = c2.accountEmail
  ∧ c1.accountPassword = c2.accountPassword ∧ c1.accessToken = c2.accessToken
  ∧ c1.refreshToken = c2.refreshToken ∧ c1.oauthIDToken = c2.oauthIDToken

/-- A session with its OAuth refresh token, expiry, scope and token type replaced. -/
def setOAuthExtras (c : DublinBikesClient) (refresh : String) (expiry : GoInt)
    (scope tokenType : String) : DublinBikesClient :=
  { c with
      oauthOAuthRefreshToken := refresh
      oauthExpiresIn := expiry
      oauthScope := scope
      oauthTokenType := tokenType }

/-! ## Inputs of the examples -/

/-- A transport that answers as `scripted`, but every request from the n-th on with
status 500. -/
def failingFrom (n : Nat) (script : List Response) : Transport :=
  fun log stop req =>
    if n ≤ log.length then some ⟨500, [], some ""⟩ else scripted script log stop req

/-- A session as left by steps 1 to 3, for examples. -/
def demoClient : DublinBikesClient :=
  { accountID := "acc", accountEmail := "me@x.ie", accountPassword := "p w",
    accessToken := "a1", refreshToken := "r1", oauthOAuthRefreshToken := "B0",
    oauthIDToken := "C0", oauthExpiresIn := GoInt.zero, oauthScope := "S0",
    oauthTokenType := "T0" }

/-- The session of the examples with other OAuth extras. -/
def demoClientOtherExtras : DublinBikesClient :=
  setOAuthExtras demoClient "B9" ⟨7, by decide⟩ "S9" "T9"

/-- A session after a successful refresh, for examples. -/
def demoRefreshed : DublinBikesClient :=
  { demoClient with accessToken := "Z" }

/-- The client-token request of the examples. -/
def demoClientTokensRequest : Request :=
  clientTokensRequest "\x7b\"code\":\"vls.web.dublin:PRD\",\"key\":\"0398667a307bbd0d8258a8c9b81dc11657aacae406a1b406a6b26b26ecc7f60e\"\x7d"

/-- The refresh request of the examples. -/
def demoRefreshRequest : Request :=
  refreshRequest "\x7b\"refreshToken\":\"r1\"\x7d"

/-- A redirect with a percent-encoded `code` parameter after another parameter. -/
def demoLocation : String :=
  "https://www.dublinbikes.ie/openid_connect_login?state=x&code=c%2F1+z&code=other"

/-- A redirect whose `code` parameter holds a semicolon. -/
def demoSemicolonLocation : String :=
  "https://www.dublinbikes.ie/openid_connect_login?code=a;b"

/-- A well-formed answer of the token endpoint. -/
def demoTokenBody : String :=
  "\x7b\"token_type\":\"T\",\"access_token\":\"A\",\"refresh_token\":\"B\",\"id_token\":\"C\",\"expires_in\":3600,\"scope\":\"S\"\x7d"

/-- The members of `demoTokenBody`. -/
def demoTokenMembers : List (String × JSON) :=
  [("token_type", .str "T"), ("access_token", .str "A"), ("refresh_token", .str "B"),
   ("id_token", .str "C"), ("expires_in", .num (.int 3600)), ("scope", .str "S")]

/-- An answer of the refresh endpoint that also carries a refresh token. -/
def demoRefreshBody : String :=
  "\x7b\"refreshToken\":\"other\",\"accessToken\":\"Z\"\x7d"

/-- An answer of the trips endpoint with two complete trip objects. -/
def demoTripsBody : String :=
  "[\x7b\"id\":\"t1\",\"duration\":12,\"isRated\":true\x7d, \x7b\"id\":\"t2\",\"startStation\":5\x7d]"

/-- An answer of the refresh endpoint that reports an error instead of a token. -/
def demoErrorBody : String := "\x7b\"error\":\"invalid_grant\"\x7d"

/-- An answer of the client-token endpoint that breaks off in the middle of a value. -/
def demoTruncatedBody : String := "\x7b\"accessToken\":\"a2\",\"refreshToken\":"

/-- An answer of the token endpoint whose `expires_in` is a string. -/
def demoMistypedTokenBody : String :=
  "\x7b\"access_token\":\"A\",\"expires_in\":\"soon\",\"id_token\":\"C\"\x7d"

/-- An answer of the trips endpoint whose second element is a number. -/
def demoMistypedTripsBody : String := "[\x7b\"id\":\"t1\"\x7d, 7]"

/-- The answers of the client-token, login, token and refresh endpoints in a successful
construction. -/
def demoScript : List Response :=
  [⟨200, [], some "\x7b\"accessToken\":\"a1\",\"refreshToken\":\"r1\"\x7d"⟩,
   ⟨302, [("Location", demoLocation)], none⟩,
   ⟨200, [], some demoTokenBody⟩,
   ⟨200, [], some demoRefreshBody⟩]

/-! # Theorems -/

/-! ## Requests -/

theorem NewRequest_of_accepted {L : Stdlib} {url : String} (method : String)
    (body : Option String) (h : (L.urlParse url).isSome) :
    NewRequest L method url body = some ⟨method, url, [], body⟩ := by
  unfold NewRequest
  cases hu : L.urlParse url with
  | none => simp [hu] at h
  | some u => rfl

theorem NewRequest_eq_some {L : Stdlib} {method url : String} {body : Option String}
    {req : Request} (h : NewRequest L method url body = some req) :
    req = ⟨method, url, [], body⟩ := by
  unfold NewRequest at h
  cases hu : L.urlParse url with
  | none => simp [hu] at h
  | some u => simp [hu] at h; exact h.symm

theorem clientTokensRequest_eq (jsonData : String) :
    (Request.setHeader ⟨"POST", clientTokensURL, [], some jsonData⟩ "Content-Type"
      "application/json") = clientTokensRequest jsonData := by
  rfl

theorem refreshRequest_eq (jsonData : String) :
    (Request.setHeader ⟨"POST", refreshURL, [], some jsonData⟩ "Content-Type"
      "application/json") = refreshRequest jsonData := by
  rfl

theorem tokenRequest_eq (client : DublinBikesClient) (code : String) :
    ((Request.setHeader ⟨"POST", tokenURL code, [], some "\x7b\x7d"⟩ "Authorization"
      ("Taknv1 " ++ client.accessToken)).setHeader "Content-Type" "application/json")
      = tokenRequest client code := by
  simp [Request.setHeader, Header.Set, tokenRequest]

theorem tripsRequest_eq (client : DublinBikesClient) :
    (((Request.setHeader ⟨"GET", tripsURL client, [], none⟩ "Identity"
      client.oauthIDToken).setHeader "Authorization"
      ("Taknv1 " ++ client.accessToken)).setHeader "Accept"
      "application/json, text/plain, */*") = tripsRequest client := by
  simp [Request.setHeader, Header.Set, tripsRequest]

/-! ## What each operation does once its request is answered with the expected status -/

theorem generateClientTokens_run (L : Stdlib) (t : Transport) (client : DublinBikesClient)
    (log : List Request) (jsonData : String) (resp : Response) (body : String)
    (hm : L.jsonMarshal clientTokensData = some jsonData)
    (hu : (L.urlParse clientTokensURL).isSome)
    (ht : t log false (clientTokensRequest jsonData) = some resp)
    (hs : resp.StatusCode = 200) (hb : resp.Body = some body) :
    generateClientTokens L t client log =
      if (jsonUnmarshal L ClientTokensResponse.fields body ClientTokensResponse.zero).2 then
        ⟨.error .unmarshal, client, log ++ [clientTokensRequest jsonData]⟩
      else
        ⟨.ok (),
         { client with
             accessToken := (jsonUnmarshal L ClientTokensResponse.fields body
               ClientTokensResponse.zero).1.AccessToken
             refreshToken := (jsonUnmarshal L ClientTokensResponse.fields body
               ClientTokensResponse.zero).1.RefreshToken },
         log ++ [clientTokensRequest jsonData]⟩ := by
  unfold generateClientTokens
  simp only [hm, NewRequest_of_accepted "POST" (some jsonData) hu, clientTokensRequest_eq,
    ht, hs, hb]
  simp

theorem login_run (L : Stdlib) (t : Transport) (client : DublinBikesClient)
    (log : List Request) (resp : Response)
    (hu : (L.urlParse (loginURL client)).isSome)
    (ht : t log true (loginRequest client) = some resp)
    (hs : resp.StatusCode = 302) :
    login L t client log =
      if Header.Get resp.Header "Location" = "" then
        ⟨.error .noLocation, client, log ++ [loginRequest client]⟩
      else
        match L.urlParse (Header.Get resp.Header "Location") with
        | none => ⟨.error .parseLocation, client, log ++ [loginRequest client]⟩
        | some locationURL =>
          if Values.Get locationURL.Query "code" = "" then
            ⟨.error .noCode, client, log ++ [loginRequest client]⟩
          else
            ⟨.ok (Values.Get locationURL.Query "code"), client,
             log ++ [loginRequest client]⟩ := by
  unfold login
  have hreq : (⟨"GET", loginURL client, [], none⟩ : Request) = loginRequest client := rfl
  simp only [NewRequest_of_accepted "GET" none hu, hreq, ht, hs]
  rfl

theorem exchangeCodeForToken_run (L : Stdlib) (t : Transport) (code : String)
    (client : DublinBikesClient) (log : List Request) (resp : Response) (body : String)
    (hu : (L.urlParse (tokenURL code)).isSome)
    (ht : t log false (tokenRequest client code) = some resp)
    (hs : resp.StatusCode = 200) (hb : resp.Body = some body) :
    exchangeCodeForToken L t code client log =
      if (jsonUnmarshal L TokenResponse.fields body TokenResponse.zero).2 then
        ⟨.error .unmarshal, client, log ++ [tokenRequest client code]⟩
      else
        ⟨.ok (),
         { client with
             accessToken := (jsonUnmarshal L TokenResponse.fields body
               TokenResponse.zero).1.AccessToken
             oauthOAuthRefreshToken := (jsonUnmarshal L TokenResponse.fields body
               TokenResponse.zero).1.RefreshToken
             oauthIDToken := (jsonUnmarshal L TokenResponse.fields body
               TokenResponse.zero).1.IDToken
             oauthExpiresIn := (jsonUnmarshal L TokenResponse.fields body
               TokenResponse.zero).1.ExpiresIn
             oauthScope := (jsonUnmarshal L TokenResponse.fields body
               TokenResponse.zero).1.Scope
             oauthTokenType := (jsonUnmarshal L TokenResponse.fields body
               TokenResponse.zero).1.TokenType },
         log ++ [tokenRequest client code]⟩ := by
  unfold exchangeCodeForToken
  simp only [NewRequest_of_accepted "POST" (some "\x7b\x7d") hu, tokenRequest_eq, ht, hs, hb]
  simp

theorem RefreshAccessToken_run (L : Stdlib) (t : Transport) (client : DublinBikesClient)
    (log : List Request) (jsonData : String) (resp : Response) (body : String)
    (hm : L.jsonMarshal [("refreshToken", client.refreshToken)] = some jsonData)
    (hu : (L.urlParse refreshURL).isSome)
    (ht : t log false (refreshRequest jsonData) = some resp)
    (hs : resp.StatusCode = 200) (hb : resp.Body = some body) :
    RefreshAccessToken L t client log =
      if (jsonUnmarshal L ClientTokensResponse.fields body ClientTokensResponse.zero).2 then
        ⟨.error .unmarshal, client, log ++ [refreshRequest jsonData]⟩
      else
        ⟨.ok (),
         { client with accessToken := (jsonUnmarshal L ClientTokensResponse.fields body
             ClientTokensResponse.zero).1.AccessToken },
         log ++ [refreshRequest jsonData]⟩ := by
  unfold RefreshAccessToken
  simp only [hm, NewRequest_of_accepted "POST" (some jsonData) hu, refreshRequest_eq,
    ht, hs, hb]
  simp

theorem fetchTrips_run (L : Stdlib) (t : Transport) (client : DublinBikesClient)
    (log : List Request) (resp : Response) (body : String)
    (hu : (L.urlParse (tripsURL client)).isSome)
    (ht : t log false (tripsRequest client) = some resp)
    (hs : resp.StatusCode = 200) (hb : resp.Body = some body) :
    fetchTrips L t client log =
      if (jsonUnmarshalSlice L Trip.fields Trip.zero body).2 then
        ⟨.error .unmarshal, client, log ++ [tripsRequest client]⟩
      else
        ⟨.ok (jsonUnmarshalSlice L Trip.fields Trip.zero body).1, client,
         log ++ [tripsRequest client]⟩ := by
  unfold fetchTrips
  simp only [NewRequest_of_accepted "GET" none hu, tripsRequest_eq, ht, hs, hb]
  simp

theorem GetTrips_of_refresh (L : Stdlib) (t : Transport) (client c1 : DublinBikesClient)
    (log log1 : List Request)
    (hr : RefreshAccessToken L t client log = ⟨.ok (), c1, log1⟩) :
    GetTrips L t client log = fetchTrips L t c1 log1 := by
  unfold GetTrips
  simp [hr]

theorem RefreshAccessToken_log (L : Stdlib) (t : Transport) (client : DublinBikesClient)
    (log : List Request) (jsonData : String)
    (hm : L.jsonMarshal [("refreshToken", client.refreshToken)] = some jsonData)
    (hu : (L.urlParse refreshURL).isSome) :
    (RefreshAccessToken L t client log).log = log ++ [refreshRequest jsonData] := by
  unfold RefreshAccessToken
  simp only [hm, NewRequest_of_accepted "POST" (some jsonData) hu, refreshRequest_eq]
  split
  · rfl
  · split
    · rfl
    · split
      · rfl
      · split <;> rfl

theorem fetchTrips_log (L : Stdlib) (t : Transport) (client : DublinBikesClient)
    (log : List Request) (hu : (L.urlParse (tripsURL client)).isSome) :
    (fetchTrips L t client log).log = log ++ [tripsRequest client] := by
  unfold fetchTrips
  simp only [NewRequest_of_accepted "GET" none hu, tripsRequest_eq]
  cases ht : t log false (tripsRequest client) with
  | none => simp [ht]
  | some resp =>
    by_cases hs : resp.StatusCode = 200
    · simp only [ht, hs]
      cases hb : resp.Body with
      | none => simp [hb]
      | some body =>
        by_cases hj : (jsonUnmarshalSlice L Trip.fields Trip.zero body).2 = true
        · simp [hb, hj]
        · simp [hb, hj]
    · simp [ht, hs]

theorem RefreshAccessToken_client_of_error (L : Stdlib) (t : Transport)
    (client : DublinBikesClient) (log : List Request) (e : Err)
    (h : (RefreshAccessToken L t client log).result = .error e) :
    (RefreshAccessToken L t client log).client = client := by
  revert h
  unfold RefreshAccessToken
  cases hm : L.jsonMarshal [("refreshToken", client.refreshToken)] with
  | none => simp [hm]
  | some jsonData =>
    cases hu : L.urlParse refreshURL with
    | none => simp [hm, NewRequest, hu]
    | some u =>
      simp only [hm, NewRequest, hu, refreshRequest_eq]
      cases ht : t log false (refreshRequest jsonData) with
      | none => simp [ht]
      | some resp =>
        by_cases hs : resp.StatusCode = 200
        · simp only [ht, hs]
          cases hb : resp.Body with
          | none => simp [hb]
          | some body =>
            by_cases hj : (jsonUnmarshal L ClientTokensResponse.fields body
                ClientTokensResponse.zero).2 = true
            · simp [hb, hj]
            · simp [hb, hj]
        · simp [ht, hs]

theorem RefreshAccessToken_body (L : Stdlib) (t : Transport) (c : DublinBikesClient)
    (log : List Request) :
    (RefreshAccessToken L t c log).log = log
    ∨ ∃ jsonData, L.jsonMarshal [("refreshToken", c.refreshToken)] = some jsonData
        ∧ (RefreshAccessToken L t c log).log = log ++ [refreshRequest jsonData] := by
  cases hm : L.jsonMarshal [("refreshToken", c.refreshToken)] with
  | none => left; simp [RefreshAccessToken, hm]
  | some jsonData =>
    cases hu : L.urlParse refreshURL with
    | none => left; simp [RefreshAccessToken, hm, NewRequest, hu]
    | some u =>
      right
      exact ⟨jsonData, rfl, RefreshAccessToken_log L t c log jsonData hm (by simp [hu])⟩

/-! ## What a step may do with the network -/

theorem generateClientTokens_spec (L : Stdlib) (t : Transport) (client : DublinBikesClient)
    (log : List Request) :
    StepSpec t false 200 (step1Request L) log (generateClientTokens L t client log) := by
  unfold StepSpec generateClientTokens step1Request
  cases hm : L.jsonMarshal clientTokensData with
  | none => simp [hm]
  | some jsonData =>
    cases hu : L.urlParse clientTokensURL with
    | none => simp [hm, NewRequest, hu]
    | some u =>
      simp only [hm, NewRequest, hu, clientTokensRequest_eq, Option.getD_some]
      cases ht : t log false (clientTokensRequest jsonData) with
      | none => simp [ht]
      | some resp =>
        by_cases hs : resp.StatusCode = 200
        · simp only [ht, hs]
          cases hb : resp.Body with
          | none => simp [hb]
          | some body =>
            by_cases hj : (jsonUnmarshal L ClientTokensResponse.fields body
                ClientTokensResponse.zero).2 = true
            · simp [hb, hj]
            · simp [hb, hj, hs]
        · simp [ht, hs]

theorem login_spec (L : Stdlib) (t : Transport) (client : DublinBikesClient)
    (log : List Request) :
    StepSpec t true 302 (loginRequest client) log (login L t client log) := by
  unfold StepSpec login
  have hreq : (⟨"GET", loginURL client, [], none⟩ : Request) = loginRequest client := rfl
  cases hu : L.urlParse (loginURL client) with
  | none => simp [NewRequest, hu]
  | some u =>
    simp only [NewRequest, hu, hreq]
    cases ht : t log true (loginRequest client) with
    | none => simp [ht]
    | some resp =>
      by_cases hs : resp.StatusCode = 302
      · simp only [ht, hs]
        by_cases hl : Header.Get resp.Header "Location" = ""
        · simp [hl]
        · cases hp : L.urlParse (Header.Get resp.Header "Location") with
          | none => simp [hl, hp]
          | some locationURL =>
            by_cases hc : Values.Get locationURL.Query "code" = ""
            · simp [hl, hp, hc]
            · simp [hl, hp, hc, hs]
      · simp [ht, hs]

theorem exchangeCodeForToken_spec (L : Stdlib) (t : Transport) (code : String)
    (client : DublinBikesClient) (log : List Request) :
    StepSpec t false 200 (tokenRequest client code) log
      (exchangeCodeForToken L t code client log) := by
  unfold StepSpec exchangeCodeForToken
  cases hu : L.urlParse (tokenURL code) with
  | none => simp [NewRequest, hu]
  | some u =>
    simp only [NewRequest, hu, tokenRequest_eq]
    cases ht : t log false (tokenRequest client code) with
    | none => simp [ht]
    | some resp =>
      by_cases hs : resp.StatusCode = 200
      · simp only [ht, hs]
        cases hb : resp.Body with
        | none => simp [hb]
        | some body =>
          by_cases hj : (jsonUnmarshal L TokenResponse.fields body TokenResponse.zero).2 = true
          · simp [hb, hj]
          · simp [hb, hj, hs]
      · simp [ht, hs]

theorem RefreshAccessToken_spec (L : Stdlib) (t : Transport) (client : DublinBikesClient)
    (log : List Request) :
    StepSpec t false 200 (refreshRequestOf L client) log (RefreshAccessToken L t client log) := by
  unfold StepSpec RefreshAccessToken refreshRequestOf
  cases hm : L.jsonMarshal [("refreshToken", client.refreshToken)] with
  | none => simp [hm]
  | some jsonData =>
    cases hu : L.urlParse refreshURL with
    | none => simp [hm, NewRequest, hu]
    | some u =>
      simp only [hm, NewRequest, hu, refreshRequest_eq, Option.getD_some]
      cases ht : t log false (refreshRequest jsonData) with
      | none => simp [ht]
      | some resp =>
        by_cases hs : resp.StatusCode = 200
        · simp only [ht, hs]
          cases hb : resp.Body with
          | none => simp [hb]
          | some body =>
            by_cases hj : (jsonUnmarshal L ClientTokensResponse.fields body
                ClientTokensResponse.zero).2 = true
            · simp [hb, hj]
            · simp [hb, hj, hs]
        · simp [ht, hs]

theorem fetchTrips_spec (L : Stdlib) (t : Transport) (client : DublinBikesClient)
    (log : List Request) :
    StepSpec t false 200 (tripsRequest client) log (fetchTrips L t client log) := by
  unfold StepSpec fetchTrips
  cases hu : L.urlParse (tripsURL client) with
  | none => simp [NewRequest, hu]
  | some u =>
    simp only [NewRequest, hu, tripsRequest_eq]
    cases ht : t log false (tripsRequest client) with
    | none => simp [ht]
    | some resp =>
      by_cases hs : resp.StatusCode = 200
      · simp only [ht, hs]
        cases hb : resp.Body with
        | none => simp [hb]
        | some body =>
          by_cases hj : (jsonUnmarshalSlice L Trip.fields Trip.zero body).2 = true
          · simp [hb, hj]
          · simp [hb, hj, hs]
      · simp [ht, hs]

theorem StepSpec.log_of_ok {α : Type} {t : Transport} {stop : Bool} {expected : Nat}
    {req : Request} {log : List Request} {r : Ret α} (h : StepSpec t stop expected req log r)
    {x : α} (hx : r.result = .ok x) : r.log = log ++ [req] := by
  rcases h.1 with h1 | h1
  · obtain ⟨e, he⟩ := h.2.1 h1
    rw [hx] at he
    cases he
  · exact h1

/-! ## Decoding: the order of distinct members, and when a type error is reported -/

theorem foldl_storeMember {T : Type} (L : Stdlib) (fields : List (Field T))
    (ms : List (String × JSON)) (x : T) (b : Bool) :
    ms.foldl (storeMember L fields) (x, b)
      = ((decodeObject L fields ms x).1, b || (decodeObject L fields ms x).2) := by
  induction ms generalizing x b with
  | nil => simp [decodeObject]
  | cons m ms ih =>
    obtain ⟨key, v⟩ := m
    simp only [List.foldl_cons, storeMember, decodeObject]
    cases hf : findField L fields key with
    | none => simp [ih]
    | some f => simp [ih, Bool.or_assoc]

theorem decodeObject_perm {T : Type} (L : Stdlib) (fields : List (Field T))
    {ms₁ ms₂ : List (String × JSON)} (p : ms₁.Perm ms₂)
    (comm : ∀ a ∈ ms₁, ∀ b ∈ ms₁, ∀ s,
      storeMember L fields (storeMember L fields s a) b
        = storeMember L fields (storeMember L fields s b) a)
    (x : T) : decodeObject L fields ms₁ x = decodeObject L fields ms₂ x := by
  have h := p.foldl_eq' comm (x, false)
  rw [foldl_storeMember, foldl_storeMember] at h
  simpa [Prod.ext_iff] using h

theorem decode_token_perm (L : Stdlib) (A B C S T : String) (E : GoInt)
    (ms : List (String × JSON))
    (p : ms.Perm [("access_token", .str A), ("refresh_token", .str B), ("id_token", .str C),
      ("expires_in", .num (.int E.val)), ("scope", .str S), ("token_type", .str T)]) :
    decodeValue L TokenResponse.fields (.obj ms) TokenResponse.zero
      = (⟨A, T, B, E, S, C⟩, false) := by
  have h := decodeObject_perm L TokenResponse.fields p.symm (by
    intro a ha b hb s
    simp only [List.mem_cons, List.mem_singleton, List.not_mem_nil, or_false] at ha hb
    rcases ha with rfl | rfl | rfl | rfl | rfl | rfl <;>
    rcases hb with rfl | rfl | rfl | rfl | rfl | rfl <;>
    simp [storeMember, findField, TokenResponse.fields, Field.store, Field.name, List.find?,
      E.property, Bool.or_assoc]) TokenResponse.zero
  simp only [decodeValue]
  rw [← h]
  simp [decodeObject, findField, TokenResponse.fields, Field.store,
    Field.name, TokenResponse.zero, List.find?, E.property]

theorem Field.store_flag {T : Type} (f : Field T) (v : JSON) (x : T) :
    (f.store v x).2 = !f.accepts v := by
  cases f with
  | string n set => cases v <;> simp [Field.store, Field.accepts]
  | bool n set => cases v <;> simp [Field.store, Field.accepts]
  | int n set =>
    cases v with
    | num k =>
      cases k with
      | int i => by_cases h : minInt ≤ i ∧ i ≤ maxInt <;> simp [Field.store, Field.accepts, h]
      | real l => simp [Field.store, Field.accepts]
    | null => simp [Field.store, Field.accepts]
    | bool b => simp [Field.store, Field.accepts]
    | str s => simp [Field.store, Field.accepts]
    | arr es => simp [Field.store, Field.accepts]
    | obj ms => simp [Field.store, Field.accepts]

theorem decodeObject_flag {T : Type} (L : Stdlib) (fields : List (Field T))
    (ms : List (String × JSON)) (x : T) :
    (decodeObject L fields ms x).2 = ms.any (memberMismatch L fields) := by
  induction ms generalizing x with
  | nil => simp [decodeObject]
  | cons m ms ih =>
    obtain ⟨key, v⟩ := m
    simp only [decodeObject, List.any_cons, memberMismatch]
    cases hf : findField L fields key with
    | none => simp [ih]
    | some f => simp [ih, Field.store_flag]

theorem decodeValue_flag {T : Type} (L : Stdlib) (fields : List (Field T)) (v : JSON) (x : T) :
    (decodeValue L fields v x).2 = structMismatch L fields v := by
  cases v <;> simp [decodeValue, structMismatch, decodeObject_flag]

theorem GoInt.inRange (i : GoInt) : minInt ≤ i.val ∧ i.val ≤ maxInt := i.property

theorem tripOf_toJSON (L : Stdlib) (tr : Trip) : tripOf L tr.toJSON = tr := by
  simp [tripOf, Trip.toJSON, decodeValue, decodeObject, findField, Trip.fields, Field.store,
    Field.name, List.find?, GoInt.inRange, Trip.zero]

theorem structMismatch_toJSON (L : Stdlib) (tr : Trip) :
    structMismatch L Trip.fields tr.toJSON = false := by
  simp [structMismatch, Trip.toJSON, memberMismatch, findField, Trip.fields, Field.accepts,
    Field.name, List.find?, GoInt.inRange]

theorem jsonUnmarshal_flag {T : Type} (L : Stdlib) (fields : List (Field T)) (body : String)
    (x : T) : (jsonUnmarshal L fields body x).2 = badBody L (structMismatch L fields) body := by
  unfold jsonUnmarshal badBody
  cases L.jsonParse body <;> simp [decodeValue_flag]

theorem jsonUnmarshalSlice_flag {T : Type} (L : Stdlib) (fields : List (Field T)) (zero : T)
    (body : String) :
    (jsonUnmarshalSlice L fields zero body).2 = badBody L (sliceMismatch L fields) body := by
  unfold jsonUnmarshalSlice badBody
  cases h : L.jsonParse body with
  | none => rfl
  | some v => cases v <;> simp [sliceMismatch, decodeValue_flag]

theorem structMismatch_of_isTripObject (L : Stdlib) (e : JSON) (h : isTripObject L e = true) :
    structMismatch L Trip.fields e = false := by
  cases e <;> simp_all [isTripObject, structMismatch]

theorem RefreshAccessToken_of_accessToken (L : Stdlib) (t : Transport)
    (client : DublinBikesClient) (log : List Request) (jsonData : String) (resp : Response)
    (body : String) (ms : List (String × JSON)) (Z : String)
    (hm : L.jsonMarshal [("refreshToken", client.refreshToken)] = some jsonData)
    (hu : (L.urlParse refreshURL).isSome)
    (ht : t log false (refreshRequest jsonData) = some resp)
    (hs : resp.StatusCode = 200) (hb : resp.Body = some body)
    (hj : L.jsonParse body = some (.obj ms))
    (hms : ms = [("accessToken", .str Z)]
      ∨ ∃ R, ms = [("accessToken", .str Z), ("refreshToken", .str R)]
        ∨ ms = [("refreshToken", .str R), ("accessToken", .str Z)]) :
    RefreshAccessToken L t client log =
      ⟨.ok (),
       { accountID := client.accountID, accountEmail := client.accountEmail,
         accountPassword := client.accountPassword, accessToken := Z,
         refreshToken := client.refreshToken,
         oauthOAuthRefreshToken := client.oauthOAuthRefreshToken,
         oauthIDToken := client.oauthIDToken, oauthExpiresIn := client.oauthExpiresIn,
         oauthScope := client.oauthScope, oauthTokenType := client.oauthTokenType },
       log ++ [refreshRequest jsonData]⟩ := by
  rw [RefreshAccessToken_run L t client log jsonData resp body hm hu ht hs hb]
  rcases hms with rfl | ⟨R, rfl | rfl⟩ <;>
  simp [jsonUnmarshal, hj, decodeValue, decodeObject, findField,
    ClientTokensResponse.fields, Field.store, Field.name, ClientTokensResponse.zero,
    List.find?]

/-! ## The query of the redirect -/

theorem unescapeBytes_ne_nil (cs : List Char) (hne : cs ≠ []) (hv : unescapeValid cs = true) :
    unescapeBytes cs ≠ [] := by
  cases cs with
  | nil => exact absurd rfl hne
  | cons c cs =>
    unfold unescapeBytes
    unfold unescapeValid at hv
    by_cases hc : c = '%'
    · simp only [hc, if_true] at hv ⊢
      match cs, hv with
      | a :: b :: rest, _ => simp
    · simp only [hc, if_false]
      split <;> simp

theorem QueryUnescape_ne_empty (s v : String) (hne : s ≠ "") (h : QueryUnescape s = some v) :
    v ≠ "" := by
  unfold QueryUnescape at h
  split at h
  · rename_i hv
    simp at h
    subst h
    intro hcontra
    have hd : unescapeBytes s.data = [] := by
      have := congrArg String.data hcontra
      simpa using this
    exact unescapeBytes_ne_nil s.data (by
      intro hnil
      apply hne
      cases s
      simp_all) hv hd
  · simp at h

theorem parsePair_code (XYZ v : String) (hsemi : ';' ∉ XYZ.data)
    (hv : QueryUnescape XYZ = some v) :
    parsePair ("code=" ++ XYZ) = some ("code", v) := by
  have hdata : ("code=" ++ XYZ).data = 'c' :: 'o' :: 'd' :: 'e' :: '=' :: XYZ.data := by
    simp [String.data_append]
  have hne : ("code=" ++ XYZ) ≠ "" := by
    intro h
    have := congrArg String.data h
    rw [hdata] at this
    simp at this
  have hcode : QueryUnescape ⟨['c', 'o', 'd', 'e']⟩ = some "code" := by decide
  have hx : (⟨XYZ.data⟩ : String) = XYZ := rfl
  unfold parsePair
  rw [hdata]
  simp [hne, hsemi, cutChars, hcode, hx, hv]

theorem Values_Get_first (ps₁ ps₂ : List String) (p : String) (key value : String)
    (h₁ : ∀ q ∈ ps₁, ∀ kv, parsePair q = some kv → kv.1 ≠ key)
    (hp : parsePair p = some (key, value)) :
    Values.Get ((ps₁ ++ p :: ps₂).filterMap parsePair) key = value := by
  induction ps₁ with
  | nil => simp [List.filterMap_cons, hp, Values.Get]
  | cons q qs ih =>
    have hq := h₁ q (List.mem_cons_self _ _)
    have ih' := ih (fun r hr => h₁ r (List.mem_cons_of_mem _ hr))
    simp only [List.cons_append, List.filterMap_cons]
    cases hqp : parsePair q with
    | none => simpa using ih'
    | some kv =>
      obtain ⟨k, w⟩ := kv
      have : k ≠ key := hq (k, w) hqp
      simp only [Values.Get, this, if_false]
      exact ih'

theorem Values_Get_none (ps : List String) (key : String)
    (h : ∀ q ∈ ps, ∀ kv, parsePair q = some kv → kv.1 ≠ key) :
    Values.Get (ps.filterMap parsePair) key = "" := by
  induction ps with
  | nil => simp [Values.Get]
  | cons q qs ih =>
    have hq := h q (List.mem_cons_self _ _)
    have ih' := ih (fun r hr => h r (List.mem_cons_of_mem _ hr))
    simp only [List.filterMap_cons]
    cases hqp : parsePair q with
    | none => simpa using ih'
    | some kv =>
      obtain ⟨k, w⟩ := kv
      have : k ≠ key := hq (k, w) hqp
      simp only [Values.Get, this, if_false]
      exact ih'

theorem isCodeParam_false {q : String} (h : isCodeParam q = false) :
    ∀ kv, parsePair q = some kv → kv.1 ≠ "code" := by
  intro kv hkv
  unfold isCodeParam at h
  rw [hkv] at h
  simpa using h

theorem splitAmp_length (cs : List Char) : (splitAmp cs).2.length = cs.count '&' := by
  induction cs with
  | nil => rfl
  | cons c cs ih =>
    unfold splitAmp
    by_cases hc : c = '&'
    · subst hc
      simp [ih]
    · have hne : ¬ ('&' = c) := fun h => hc h.symm
      simp [hc, ih, List.count_cons, hne]

theorem queryPieces_length (query : String) :
    (queryPieces query).length = query.data.count '&' + 1 := by
  simp [queryPieces, splitAmp_length]

theorem URL.Query_of_within (u : URL) (h : (queryPieces u.RawQuery).length ≤ maxQueryParams) :
    u.Query = (queryPieces u.RawQuery).filterMap parsePair := by
  unfold URL.Query
  rw [queryPieces_length] at h
  simp [Nat.not_lt.mpr h]

theorem URL.Query_of_beyond (u : URL) (h : maxQueryParams < (queryPieces u.RawQuery).length) :
    u.Query = [] := by
  unfold URL.Query
  rw [queryPieces_length] at h
  simp [h]

theorem Values_Get_Query_none (u : URL)
    (h : ∀ q ∈ queryPieces u.RawQuery, ∀ kv, parsePair q = some kv → kv.1 ≠ "code") :
    Values.Get u.Query "code" = "" := by
  by_cases hle : (queryPieces u.RawQuery).length ≤ maxQueryParams
  · rw [URL.Query_of_within u hle]
    exact Values_Get_none _ "code" h
  · rw [URL.Query_of_beyond u (Nat.lt_of_not_le hle)]
    rfl

theorem Values_Get_Query_first_empty (u : URL) (ps₁ ps₂ : List String) (p : String)
    (hq : queryPieces u.RawQuery = ps₁ ++ p :: ps₂)
    (h₁ : ∀ q ∈ ps₁, ∀ kv, parsePair q = some kv → kv.1 ≠ "code")
    (hp : parsePair p = some ("code", "")) :
    Values.Get u.Query "code" = "" := by
  by_cases hle : (queryPieces u.RawQuery).length ≤ maxQueryParams
  · rw [URL.Query_of_within u hle, hq]
    exact Values_Get_first ps₁ ps₂ p "code" "" h₁ hp
  · rw [URL.Query_of_beyond u (Nat.lt_of_not_le hle)]
    rfl

/-! ## Sessions that differ in the OAuth extras -/

theorem sameButOAuthExtras_eq {c1 c2 : DublinBikesClient} (h : sameButOAuthExtras c1 c2) :
    c2 = setOAuthExtras c1 c2.oauthOAuthRefreshToken c2.oauthExpiresIn c2.oauthScope
      c2.oauthTokenType := by
  obtain ⟨h1, h2, h3, h4, h5, h6⟩ := h
  cases c1; cases c2
  simp only [setOAuthExtras] at *
  simp_all

theorem RefreshAccessToken_setOAuthExtras (L : Stdlib) (t : Transport)
    (c : DublinBikesClient) (log : List Request) (b : String) (e : GoInt) (s ty : String) :
    RefreshAccessToken L t (setOAuthExtras c b e s ty) log
      = ⟨(RefreshAccessToken L t c log).result,
         setOAuthExtras (RefreshAccessToken L t c log).client b e s ty,
         (RefreshAccessToken L t c log).log⟩ := by
  unfold RefreshAccessToken
  simp only [setOAuthExtras]
  cases hm : L.jsonMarshal [("refreshToken", c.refreshToken)] with
  | none => simp [hm]
  | some jsonData =>
    cases hu : L.urlParse refreshURL with
    | none => simp [hm, NewRequest, hu]
    | some u =>
      simp only [hm, NewRequest, hu, refreshRequest_eq]
      cases ht : t log false (refreshRequest jsonData) with
      | none => simp [ht]
      | some resp =>
        by_cases hs : resp.StatusCode = 200
        · simp only [ht, hs]
          cases hb : resp.Body with
          | none => simp [hb]
          | some body =>
            by_cases hj : (jsonUnmarshal L ClientTokensResponse.fields body
                ClientTokensResponse.zero).2 = true
            · simp [hb, hj]
            · simp [hb, hj]
        · simp [ht, hs]

theorem fetchTrips_setOAuthExtras (L : Stdlib) (t : Transport)
    (c : DublinBikesClient) (log : List Request) (b : String) (e : GoInt) (s ty : String) :
    fetchTrips L t (setOAuthExtras c b e s ty) log
      = ⟨(fetchTrips L t c log).result,
         setOAuthExtras (fetchTrips L t c log).client b e s ty,
         (fetchTrips L t c log).log⟩ := by
  unfold fetchTrips
  have hurl : tripsURL (setOAuthExtras c b e s ty) = tripsURL c := rfl
  have hid : (setOAuthExtras c b e s ty).oauthIDToken = c.oauthIDToken := rfl
  have hat : (setOAuthExtras c b e s ty).accessToken = c.accessToken := rfl
  simp only [hurl, hid, hat]
  cases hu : L.urlParse (tripsURL c) with
  | none => simp [NewRequest, hu]
  | some u =>
    simp only [NewRequest, hu, tripsRequest_eq]
    cases ht : t log false (tripsRequest c) with
    | none => simp [ht]
    | some resp =>
      by_cases hs : resp.StatusCode = 200
      · simp only [ht, hs]
        cases hb : resp.Body with
        | none => simp [hb]
        | some body =>
          by_cases hj : (jsonUnmarshalSlice L Trip.fields Trip.zero body).2 = true
          · simp [hb, hj]
          · simp [hb, hj]
      · simp [ht, hs]

theorem GetTrips_setOAuthExtras (L : Stdlib) (t : Transport)
    (c : DublinBikesClient) (log : List Request) (b : String) (e : GoInt) (s ty : String) :
    GetTrips L t (setOAuthExtras c b e s ty) log
      = ⟨(GetTrips L t c log).result,
         setOAuthExtras (GetTrips L t c log).client b e s ty,
         (GetTrips L t c log).log⟩ := by
  unfold GetTrips
  simp only [RefreshAccessToken_setOAuthExtras]
  cases hr : (RefreshAccessToken L t c log).result with
  | error err => simp
  | ok u => simp [fetchTrips_setOAuthExtras]

theorem sameButOAuthExtras_setOAuthExtras (c : DublinBikesClient) (b : String) (e : GoInt)
    (s ty : String) : sameButOAuthExtras c (setOAuthExtras c b e s ty) := by
  simp [sameButOAuthExtras, setOAuthExtras]

/-! ## C1: the constructor -/

/-- C1. `NewDublinBikesClient` runs `generateClientTokens`, `login`,
`exchangeCodeForToken` and `RefreshAccessToken` in that order, each on the session and
the log the step before left. For every transport: each step hands at most its own
request to the HTTP client and fails when that request is not answered or is answered
with an unexpected status (other than 200, or other than 302 for `login`); if step k is
the first step that fails, the constructor returns `(nil, err)` with the error of step k
and the log is the log step k left, so no request of a later step is issued; when all
four steps succeed the constructor returns the session step 4 left, after exactly the
four requests in order; and a client is returned only when all four steps succeeded. -/
theorem NewDublinBikesClient_stops_at_first_failure (L : Stdlib) (t : Transport)
    (account_id email password : String) (log : List Request) :
    (StepSpec t false 200 (step1Request L) log (step1 L t account_id email password log)
      ∧ StepSpec t true 302 (loginRequest (step1 L t account_id email password log).client)
          (step1 L t account_id email password log).log
          (step2 L t account_id email password log)
      ∧ StepSpec t false 200
          (tokenRequest (step2 L t account_id email password log).client
            (codeOf (step2 L t account_id email password log)))
          (step2 L t account_id email password log).log
          (step3 L t account_id email password log)
      ∧ StepSpec t false 200
          (refreshRequestOf L (step3 L t account_id email password log).client)
          (step3 L t account_id email password log).log
          (step4 L t account_id email password log))
    ∧ (∀ e, (step1 L t account_id email password log).result = .error e →
        NewDublinBikesClient L t account_id email password log
          = (.error e, (step1 L t account_id email password log).log))
    ∧ (∀ e, (step1 L t account_id email password log).result = .ok () →
        (step2 L t account_id email password log).result = .error e →
        NewDublinBikesClient L t account_id email password log
          = (.error e, (step2 L t account_id email password log).log))
    ∧ (∀ e code, (step1 L t account_id email password log).result = .ok () →
        (step2 L t account_id email password log).result = .ok code →
        (step3 L t account_id email password log).result = .error e →
        NewDublinBikesClient L t account_id email password log
          = (.error e, (step3 L t account_id email password log).log))
    ∧ (∀ e code, (step1 L t account_id email password log).result = .ok () →
        (step2 L t account_id email password log).result = .ok code →
        (step3 L t account_id email password log).result = .ok () →
        (step4 L t account_id email password log).result = .error e →
        NewDublinBikesClient L t account_id email password log
          = (.error e, (step4 L t account_id email password log).log))
    ∧ (∀ code, (step1 L t account_id email password log).result = .ok () →
        (step2 L t account_id email password log).result = .ok code →
        (step3 L t account_id email password log).result = .ok () →
        (step4 L t account_id email password log).result = .ok () →
        NewDublinBikesClient L t account_id email password log
          = (.ok (step4 L t account_id email password log).client,
             log ++ [step1Request L,
               loginRequest (step1 L t account_id email password log).client,
               tokenRequest (step2 L t account_id email password log).client code,
               refreshRequestOf L (step3 L t account_id email password log).client]))
    ∧ (∀ c, (NewDublinBikesClient L t account_id email password log).1 = .ok c →
        (step1 L t account_id email password log).result = .ok ()
        ∧ (∃ code, (step2 L t account_id email password log).result = .ok code)
        ∧ (step3 L t account_id email password log).result = .ok ()
        ∧ (step4 L t account_id email password log).result = .ok ()
        ∧ c = (step4 L t account_id email password log).client) := by
  have s1 : StepSpec t false 200 (step1Request L) log
      (step1 L t account_id email password log) := generateClientTokens_spec L t _ log
  have s2 : StepSpec t true 302 (loginRequest (step1 L t account_id email password log).client)
      (step1 L t account_id email password log).log
      (step2 L t account_id email password log) := login_spec L t _ _
  have s3 : StepSpec t false 200
      (tokenRequest (step2 L t account_id email password log).client
        (codeOf (step2 L t account_id email password log)))
      (step2 L t account_id email password log).log
      (step3 L t account_id email password log) := exchangeCodeForToken_spec L t _ _ _
  have s4 : StepSpec t false 200
      (refreshRequestOf L (step3 L t account_id email password log).client)
      (step3 L t account_id email password log).log
      (step4 L t account_id email password log) := RefreshAccessToken_spec L t _ _
  refine ⟨⟨s1, s2, s3, s4⟩, ?_, ?_, ?_, ?_, ?_, ?_⟩
  · intro e h1
    unfold step1 at h1
    simp [NewDublinBikesClient, step1, h1]
  · intro e h1 h2
    unfold step1 at h1
    unfold step2 step1 at h2
    simp [NewDublinBikesClient, step2, step1, h1, h2]
  · intro e code h1 h2 h3
    unfold step1 at h1
    unfold step2 step1 at h2
    unfold step3 step2 step1 at h3
    simp only [codeOf, h2] at h3
    simp [NewDublinBikesClient, step3, step2, step1, codeOf, h1, h2, h3]
  · intro e code h1 h2 h3 h4
    unfold step1 at h1
    unfold step2 step1 at h2
    unfold step3 step2 step1 at h3
    unfold step4 step3 step2 step1 at h4
    simp only [codeOf, h2] at h3 h4
    simp [NewDublinBikesClient, step4, step3, step2, step1, codeOf, h1, h2, h3, h4]
  · intro code h1 h2 h3 h4
    have l1 := s1.log_of_ok h1
    have l2 := s2.log_of_ok h2
    have l3 := s3.log_of_ok h3
    have l4 := s4.log_of_ok h4
    have hc : codeOf (step2 L t account_id email password log) = code := by
      simp [codeOf, h2]
    have hlog : (step4 L t account_id email password log).log
        = log ++ [step1Request L,
            loginRequest (step1 L t account_id email password log).client,
            tokenRequest (step2 L t account_id email password log).client code,
            refreshRequestOf L (step3 L t account_id email password log).client] := by
      rw [l4, l3, l2, l1, hc]
      simp
    rw [← hlog]
    unfold step1 at h1
    unfold step2 step1 at h2
    unfold step3 step2 step1 at h3
    unfold step4 step3 step2 step1 at h4
    simp only [codeOf, h2] at h3 h4
    simp [NewDublinBikesClient, step4, step3, step2, step1, codeOf, h1, h2, h3, h4]
  · intro c hc
    unfold NewDublinBikesClient at hc
    simp only at hc
    split at hc
    · simp at hc
    · rename_i u1 h1
      split at hc
      · simp at hc
      · rename_i code h2
        split at hc
        · simp at hc
        · rename_i u3 h3
          split at hc
          · simp at hc
          · rename_i u4 h4
            have h2' : (step2 L t account_id email password log).result = .ok code := h2
            have hcode : codeOf (step2 L t account_id email password log) = code := by
              simp [codeOf, h2']
            refine ⟨h1, ⟨code, h2⟩, ?_, ?_, ?_⟩
            · unfold step3; rw [hcode]; exact h3
            · unfold step4 step3; rw [hcode]; exact h4
            · unfold step4 step3; rw [hcode]
              simp at hc
              exact hc.symm

theorem NewDublinBikesClient_stops_at_first_failure_witness :
    (step1 goStdlib (failingFrom 2 demoScript) "acc" "me@x.ie" "p w" []).result = .ok ()
    ∧ (step2 goStdlib (failingFrom 2 demoScript) "acc" "me@x.ie" "p w" []).result
        = .ok "c/1 z"
    ∧ (step3 goStdlib (failingFrom 2 demoScript) "acc" "me@x.ie" "p w" []).result
        = .error (.non200 500)
    ∧ (step3 goStdlib (failingFrom 2 demoScript) "acc" "me@x.ie" "p w" []).log
        = [demoClientTokensRequest, loginRequest demoClient, tokenRequest demoClient "c/1 z"]
    ∧ NewDublinBikesClient goStdlib (failingFrom 2 demoScript) "acc" "me@x.ie" "p w" []
        = (.error (.non200 500),
           (step3 goStdlib (failingFrom 2 demoScript) "acc" "me@x.ie" "p w" []).log) :=
  ⟨by rfl, by rfl, by rfl, by rfl,
   (NewDublinBikesClient_stops_at_first_failure goStdlib (failingFrom 2 demoScript)
     "acc" "me@x.ie" "p w" []).2.2.2.1 (.non200 500) "c/1 z" (by rfl) (by rfl) (by rfl)⟩

/-! ## C2: the code of the redirect -/

/-- C2, refuted as stated. The login response with status 302 and the header
`Location: https://www.dublinbikes.ie/openid_connect_login?code=a;b` has a query string
that contains `code=a;b`, and the URL-decoded value of `a;b` is `a;b`; yet `login`
returns the error `no code found in Location URL`, because `parseQuery` skips every
setting that contains a semicolon. -/
theorem login_rejects_code_with_semicolon :
    (login goStdlib (scripted [⟨302, [("Location", demoSemicolonLocation)], none⟩])
      demoClient []).result = .error .noCode
    ∧ goStdlib.urlParse demoSemicolonLocation = some ⟨"code=a;b"⟩
    ∧ QueryUnescape "a;b" = some "a;b" :=
  ⟨by rfl, by rfl, by rfl⟩

/-- C2, amended. For every login response with status 302: if its `Location` header is
not empty and parses as a URL, its query string has at most 10000 settings, and the first
setting named `code` is `code=XYZ` with `XYZ` not empty, free of semicolons and validly
percent-encoded, `login` returns exactly the URL-decoded `XYZ` and no error; if the
`Location` header is missing, or does not parse, or its query string has more than 10000
settings, or has no setting named `code`, or the first one is empty, `login` returns an
error. -/
theorem login_returns_first_code (L : Stdlib) (t : Transport) (client : DublinBikesClient)
    (log : List Request) (resp : Response)
    (hu : (L.urlParse (loginURL client)).isSome)
    (ht : t log true (loginRequest client) = some resp)
    (hs : resp.StatusCode = 302) :
    (∀ (locationURL : URL) (ps₁ ps₂ : List String) (XYZ v : String),
      Header.Get resp.Header "Location" ≠ "" →
      L.urlParse (Header.Get resp.Header "Location") = some locationURL →
      (queryPieces locationURL.RawQuery).length ≤ maxQueryParams →
      queryPieces locationURL.RawQuery = ps₁ ++ ("code=" ++ XYZ) :: ps₂ →
      (∀ q ∈ ps₁, isCodeParam q = false) →
      XYZ ≠ "" → ';' ∉ XYZ.data → QueryUnescape XYZ = some v →
      login L t client log = ⟨.ok v, client, log ++ [loginRequest client]⟩)
    ∧ (Header.Get resp.Header "Location" = "" →
      login L t client log = ⟨.error .noLocation, client, log ++ [loginRequest client]⟩)
    ∧ (Header.Get resp.Header "Location" ≠ "" →
      L.urlParse (Header.Get resp.Header "Location") = none →
      login L t client log = ⟨.error .parseLocation, client, log ++ [loginRequest client]⟩)
    ∧ (∀ (locationURL : URL), Header.Get resp.Header "Location" ≠ "" →
      L.urlParse (Header.Get resp.Header "Location") = some locationURL →
      maxQueryParams < (queryPieces locationURL.RawQuery).length →
      login L t client log = ⟨.error .noCode, client, log ++ [loginRequest client]⟩)
    ∧ (∀ (locationURL : URL), Header.Get resp.Header "Location" ≠ "" →
      L.urlParse (Header.Get resp.Header "Location") = some locationURL →
      (∀ q ∈ queryPieces locationURL.RawQuery, isCodeParam q = false) →
      login L t client log = ⟨.error .noCode, client, log ++ [loginRequest client]⟩)
    ∧ (∀ (locationURL : URL) (ps₁ ps₂ : List String) (p : String),
      Header.Get resp.Header "Location" ≠ "" →
      L.urlParse (Header.Get resp.Header "Location") = some locationURL →
      queryPieces locationURL.RawQuery = ps₁ ++ p :: ps₂ →
      (∀ q ∈ ps₁, isCodeParam q = false) → parsePair p = some ("code", "") →
      login L t client log = ⟨.error .noCode, client, log ++ [loginRequest client]⟩) := by
  have hrun := login_run L t client log resp hu ht hs
  refine ⟨?_, ?_, ?_, ?_, ?_, ?_⟩
  · intro locationURL ps₁ ps₂ XYZ v hl hp hle hq h₁ hne hsemi hv
    simp only [hl, if_false, hp] at hrun
    have hget : Values.Get locationURL.Query "code" = v := by
      rw [URL.Query_of_within locationURL hle, hq]
      exact Values_Get_first ps₁ ps₂ _ "code" v (fun q hq => isCodeParam_false (h₁ q hq))
        (parsePair_code XYZ v hsemi hv)
    have hvne : v ≠ "" := QueryUnescape_ne_empty XYZ v hne hv
    rw [hrun, hget]
    simp [hvne]
  · intro hl
    simp only [hl, if_true] at hrun
    exact hrun
  · intro hl hp
    simp only [hl, if_false, hp] at hrun
    exact hrun
  · intro locationURL hl hp hgt
    simp only [hl, if_false, hp] at hrun
    have hget : Values.Get locationURL.Query "code" = "" := by
      rw [URL.Query_of_beyond locationURL hgt]
      rfl
    rw [hrun, hget]
    simp
  · intro locationURL hl hp hnone
    simp only [hl, if_false, hp] at hrun
    have hget : Values.Get locationURL.Query "code" = "" :=
      Values_Get_Query_none locationURL (fun q hq => isCodeParam_false (hnone q hq))
    rw [hrun, hget]
    simp
  · intro locationURL ps₁ ps₂ p hl hp hq h₁ hpp
    simp only [hl, if_false, hp] at hrun
    have hget : Values.Get locationURL.Query "code" = "" :=
      Values_Get_Query_first_empty locationURL ps₁ ps₂ p hq
        (fun q hq => isCodeParam_false (h₁ q hq)) hpp
    rw [hrun, hget]
    simp

theorem login_returns_first_code_witness :
    (goStdlib.urlParse (loginURL demoClient)).isSome
    ∧ goStdlib.urlParse demoLocation = some ⟨"state=x&code=c%2F1+z&code=other"⟩
    ∧ queryPieces "state=x&code=c%2F1+z&code=other"
        = ["state=x"] ++ ("code=" ++ "c%2F1+z") :: ["code=other"]
    ∧ QueryUnescape "c%2F1+z" = some "c/1 z"
    ∧ login goStdlib (scripted [⟨302, [("Location", demoLocation)], none⟩]) demoClient []
        = ⟨.ok "c/1 z", demoClient, [loginRequest demoClient]⟩ :=
  ⟨by rfl, by rfl, by rfl, by rfl,
   (login_returns_first_code goStdlib (scripted [⟨302, [("Location", demoLocation)], none⟩])
     demoClient [] ⟨302, [("Location", demoLocation)], none⟩ (by rfl) (by rfl) (by rfl)).1
     ⟨"state=x&code=c%2F1+z&code=other"⟩ ["state=x"] ["code=other"] "c%2F1+z" "c/1 z"
     (by decide) (by rfl) (by decide) (by rfl)
     (by
       intro q hq
       simp only [List.mem_singleton] at hq
       subst hq
       rfl)
     (by decide) (by decide) (by rfl)⟩

/-! ## C3: the token exchange -/

/-- C3. For every session and every HTTP 200 answer to the token request whose body is
the JSON object with the members `access_token: A`, `refresh_token: B`, `id_token: C`,
`expires_in: E`, `scope: S`, `token_type: T` (in any order), `exchangeCodeForToken`
returns no error, and the session afterwards has working access token `A`, id token `C`,
OAuth refresh token `B`, expiry `E`, scope `S` and token type `T`, with account id,
email, password and client refresh token unchanged. -/
theorem exchangeCodeForToken_stores_token_set (L : Stdlib) (t : Transport) (code : String)
    (client : DublinBikesClient) (log : List Request) (resp : Response) (body : String)
    (ms : List (String × JSON)) (A B C S T : String) (E : GoInt)
    (hu : (L.urlParse (tokenURL code)).isSome)
    (ht : t log false (tokenRequest client code) = some resp)
    (hs : resp.StatusCode = 200) (hb : resp.Body = some body)
    (hj : L.jsonParse body = some (.obj ms))
    (hp : ms.Perm [("access_token", .str A), ("refresh_token", .str B),
      ("id_token", .str C), ("expires_in", .num (.int E.val)), ("scope", .str S),
      ("token_type", .str T)]) :
    exchangeCodeForToken L t code client log =
      ⟨.ok (),
       { accountID := client.accountID, accountEmail := client.accountEmail,
         accountPassword := client.accountPassword, accessToken := A,
         refreshToken := client.refreshToken, oauthOAuthRefreshToken := B,
         oauthIDToken := C, oauthExpiresIn := E, oauthScope := S, oauthTokenType := T },
       log ++ [tokenRequest client code]⟩ := by
  rw [exchangeCodeForToken_run L t code client log resp body hu ht hs hb]
  simp [jsonUnmarshal, hj, decode_token_perm L A B C S T E ms hp]

theorem exchangeCodeForToken_stores_token_set_witness :
    (goStdlib.urlParse (tokenURL "c/1")).isSome
    ∧ scripted [⟨200, [], some demoTokenBody⟩] [] false (tokenRequest demoClient "c/1")
        = some ⟨200, [], some demoTokenBody⟩
    ∧ goStdlib.jsonParse demoTokenBody = some (.obj demoTokenMembers)
    ∧ exchangeCodeForToken goStdlib (scripted [⟨200, [], some demoTokenBody⟩]) "c/1"
        demoClient [] =
      ⟨.ok (),
       { accountID := "acc", accountEmail := "me@x.ie", accountPassword := "p w",
         accessToken := "A", refreshToken := "r1", oauthOAuthRefreshToken := "B",
         oauthIDToken := "C", oauthExpiresIn := ⟨3600, by decide⟩, oauthScope := "S",
         oauthTokenType := "T" },
       [tokenRequest demoClient "c/1"]⟩ :=
  ⟨by rfl, by rfl, by rfl,
   exchangeCodeForToken_stores_token_set goStdlib (scripted [⟨200, [], some demoTokenBody⟩])
     "c/1" demoClient [] ⟨200, [], some demoTokenBody⟩ demoTokenBody demoTokenMembers
     "A" "B" "C" "S" "T" ⟨3600, by decide⟩ (by rfl) (by rfl) (by rfl) (by rfl) (by rfl)
     (List.perm_append_singleton _ _).symm⟩

/-! ## C4: the refresh -/

/-- C4. For every session (whatever its working access token) and every HTTP 200 answer
to the refresh request whose body is the JSON object `{accessToken: Z}`, possibly with a
`refreshToken` member before or after it, `RefreshAccessToken` returns no error and the
session afterwards is the prior session with the working access token replaced by `Z`:
the stored refresh token, the id token and every other field are unchanged. A later call,
whatever the transport and the log then are, therefore issues the same refresh request,
carrying the same stored refresh token. -/
theorem RefreshAccessToken_overwrites_access_token (L : Stdlib) (t : Transport)
    (client : DublinBikesClient) (log : List Request) (jsonData : String) (resp : Response)
    (body : String) (ms : List (String × JSON)) (Z : String)
    (hm : L.jsonMarshal [("refreshToken", client.refreshToken)] = some jsonData)
    (hu : (L.urlParse refreshURL).isSome)
    (ht : t log false (refreshRequest jsonData) = some resp)
    (hs : resp.StatusCode = 200) (hb : resp.Body = some body)
    (hj : L.jsonParse body = some (.obj ms))
    (hms : ms = [("accessToken", .str Z)]
      ∨ ∃ R, ms = [("accessToken", .str Z), ("refreshToken", .str R)]
        ∨ ms = [("refreshToken", .str R), ("accessToken", .str Z)]) :
    RefreshAccessToken L t client log =
      ⟨.ok (),
       { accountID := client.accountID, accountEmail := client.accountEmail,
         accountPassword := client.accountPassword, accessToken := Z,
         refreshToken := client.refreshToken,
         oauthOAuthRefreshToken := client.oauthOAuthRefreshToken,
         oauthIDToken := client.oauthIDToken, oauthExpiresIn := client.oauthExpiresIn,
         oauthScope := client.oauthScope, oauthTokenType := client.oauthTokenType },
       log ++ [refreshRequest jsonData]⟩
    ∧ ∀ (t2 : Transport) (log2 : List Request),
        (RefreshAccessToken L t2 (RefreshAccessToken L t client log).client log2).log
          = log2 ++ [refreshRequest jsonData] := by
  have hrun := RefreshAccessToken_of_accessToken L t client log jsonData resp body ms Z
    hm hu ht hs hb hj hms
  refine ⟨hrun, ?_⟩
  intro t2 log2
  rw [hrun]
  exact RefreshAccessToken_log L t2 _ log2 jsonData hm hu

theorem RefreshAccessToken_overwrites_access_token_witness :
    goStdlib.jsonMarshal [("refreshToken", demoClient.refreshToken)]
        = some "\x7b\"refreshToken\":\"r1\"\x7d"
    ∧ (goStdlib.urlParse refreshURL).isSome
    ∧ goStdlib.jsonParse demoRefreshBody
        = some (.obj [("refreshToken", .str "other"), ("accessToken", .str "Z")])
    ∧ RefreshAccessToken goStdlib (scripted [⟨200, [], some demoRefreshBody⟩]) demoClient []
        = ⟨.ok (), { demoClient with accessToken := "Z" },
           [refreshRequest "\x7b\"refreshToken\":\"r1\"\x7d"]⟩ :=
  ⟨by rfl, by rfl, by rfl,
   (RefreshAccessToken_overwrites_access_token goStdlib
     (scripted [⟨200, [], some demoRefreshBody⟩]) demoClient []
     "\x7b\"refreshToken\":\"r1\"\x7d" ⟨200, [], some demoRefreshBody⟩ demoRefreshBody
     [("refreshToken", .str "other"), ("accessToken", .str "Z")] "Z"
     (by rfl) (by rfl) (by rfl) (by rfl) (by rfl) (by rfl)
     (Or.inr ⟨"other", Or.inr rfl⟩)).1⟩

/-! ## C5: the trips of a well-formed answer -/

/-- C5. For every N and every HTTP 200 answer to the trips request (issued after a
successful refresh) whose body is a JSON array of N trip objects, `GetTrips` returns no
error and a sequence of exactly N trips whose i-th element is the decoding of the i-th
array element, in the order of the server; for the body `[]` it returns the empty
sequence and no error; and when the elements are the objects supplying every field of
the trips `trs`, it returns `trs`. -/
theorem GetTrips_returns_every_trip_in_order (L : Stdlib) (t : Transport)
    (client c1 : DublinBikesClient) (log log1 : List Request) (resp : Response)
    (body : String) (elems : List JSON)
    (hr : RefreshAccessToken L t client log = ⟨.ok (), c1, log1⟩)
    (hu : (L.urlParse (tripsURL c1)).isSome)
    (ht : t log1 false (tripsRequest c1) = some resp)
    (hs : resp.StatusCode = 200) (hb : resp.Body = some body)
    (hj : L.jsonParse body = some (.arr elems))
    (he : ∀ e ∈ elems, isTripObject L e = true) :
    GetTrips L t client log
        = ⟨.ok (elems.map (tripOf L)), c1, log1 ++ [tripsRequest c1]⟩
    ∧ (elems.map (tripOf L)).length = elems.length
    ∧ (∀ i (h : i < elems.length), (elems.map (tripOf L))[i]? = some (tripOf L elems[i]))
    ∧ (elems = [] → (GetTrips L t client log).result = .ok [])
    ∧ (∀ trs : List Trip, elems = trs.map Trip.toJSON →
        (GetTrips L t client log).result = .ok trs) := by
  have hflag : (jsonUnmarshalSlice L Trip.fields Trip.zero body).2 = false := by
    rw [jsonUnmarshalSlice_flag]
    simp only [badBody, hj, sliceMismatch, List.any_eq_false]
    intro e hmem
    simp [structMismatch_of_isTripObject L e (he e hmem)]
  have hval : (jsonUnmarshalSlice L Trip.fields Trip.zero body).1 = elems.map (tripOf L) := by
    simp [jsonUnmarshalSlice, hj, tripOf]
  have hrun : GetTrips L t client log
      = ⟨.ok (elems.map (tripOf L)), c1, log1 ++ [tripsRequest c1]⟩ := by
    rw [GetTrips_of_refresh L t client c1 log log1 hr,
      fetchTrips_run L t c1 log1 resp body hu ht hs hb, hflag, hval]
    simp
  refine ⟨hrun, by simp, ?_, ?_, ?_⟩
  · intro i h
    simp [List.getElem?_map, List.getElem?_eq_getElem h]
  · intro h0
    rw [hrun, h0]; rfl
  · intro trs htrs
    rw [hrun, htrs]
    simp [List.map_map, Function.comp_def, tripOf_toJSON]

theorem GetTrips_returns_every_trip_in_order_witness :
    RefreshAccessToken goStdlib
        (scripted [⟨200, [], some demoRefreshBody⟩, ⟨200, [], some demoTripsBody⟩])
        demoClient [] = ⟨.ok (), demoRefreshed, [demoRefreshRequest]⟩
    ∧ goStdlib.jsonParse demoTripsBody
        = some (.arr [.obj [("id", .str "t1"), ("duration", .num (.int 12)),
            ("isRated", .bool true)],
          .obj [("id", .str "t2"), ("startStation", .num (.int 5))]])
    ∧ GetTrips goStdlib
        (scripted [⟨200, [], some demoRefreshBody⟩, ⟨200, [], some demoTripsBody⟩])
        demoClient []
      = ⟨.ok [{ Trip.zero with ID := "t1", Duration := ⟨12, by decide⟩, IsRated := true },
              { Trip.zero with ID := "t2", StartStation := ⟨5, by decide⟩ }],
         demoRefreshed, [demoRefreshRequest, tripsRequest demoRefreshed]⟩ :=
  ⟨by rfl, by rfl,
   (GetTrips_returns_every_trip_in_order goStdlib
     (scripted [⟨200, [], some demoRefreshBody⟩, ⟨200, [], some demoTripsBody⟩])
     demoClient demoRefreshed [] [demoRefreshRequest] ⟨200, [], some demoTripsBody⟩
     demoTripsBody
     [.obj [("id", .str "t1"), ("duration", .num (.int 12)), ("isRated", .bool true)],
      .obj [("id", .str "t2"), ("startStation", .num (.int 5))]]
     (by rfl) (by rfl) (by rfl) (by rfl) (by rfl) (by rfl)
     (by
       intro e he
       simp only [List.mem_cons, List.mem_singleton, List.not_mem_nil, or_false] at he
       rcases he with rfl | rfl <;> rfl)).1⟩

/-! ## C6: the refresh comes first -/

/-- C6. On every call of `GetTrips`, whatever the session and the requests issued before
(so on the first call and on every later one, with no expiry check), the call begins with
`RefreshAccessToken`: if the refresh fails, `GetTrips` returns `(nil, err)`, leaves the
session as it was, and has issued nothing but, at most, the refresh request; if the
refresh succeeds, the requests of the call are the refresh request, followed at most by
the trips request. The refresh request is a POST to the access-token endpoint and the
trips request a GET to the trips endpoint, so the two are never the same request. -/
theorem GetTrips_refreshes_first (L : Stdlib) (t : Transport) (client : DublinBikesClient)
    (log : List Request) :
    (∀ e, (RefreshAccessToken L t client log).result = .error e →
      GetTrips L t client log
        = ⟨.error (.refreshing e), client, (RefreshAccessToken L t client log).log⟩
      ∧ ((GetTrips L t client log).log = log
        ∨ (GetTrips L t client log).log = log ++ [refreshRequestOf L client]))
    ∧ ((RefreshAccessToken L t client log).result = .ok () →
      (GetTrips L t client log).log = log ++ [refreshRequestOf L client]
      ∨ (GetTrips L t client log).log
          = log ++ [refreshRequestOf L client,
              tripsRequest (RefreshAccessToken L t client log).client])
    ∧ ((refreshRequestOf L client).Method = "POST"
      ∧ (refreshRequestOf L client).URL = "https://api.cyclocity.fr/auth/access_tokens"
      ∧ ∀ c, (tripsRequest c).Method = "GET"
          ∧ (tripsRequest c).URL
              = "https://api.cyclocity.fr/contracts/dublin/accounts/" ++ c.accountID ++ "/trips"
          ∧ refreshRequestOf L client ≠ tripsRequest c) := by
  have sr := RefreshAccessToken_spec L t client log
  refine ⟨?_, ?_, ?_⟩
  · intro e he
    have hc := RefreshAccessToken_client_of_error L t client log e he
    have hg : GetTrips L t client log
        = ⟨.error (.refreshing e), client, (RefreshAccessToken L t client log).log⟩ := by
      unfold GetTrips
      simp [he, hc]
    refine ⟨hg, ?_⟩
    rw [hg]
    exact sr.1
  · intro hok
    have hl := sr.log_of_ok hok
    have sf := fetchTrips_spec L t (RefreshAccessToken L t client log).client
      (RefreshAccessToken L t client log).log
    have hg : GetTrips L t client log
        = fetchTrips L t (RefreshAccessToken L t client log).client
            (RefreshAccessToken L t client log).log := by
      unfold GetTrips
      simp [hok]
    rw [hg]
    rcases sf.1 with h1 | h1
    · left; rw [h1, hl]
    · right; rw [h1, hl]; simp
  · refine ⟨rfl, rfl, ?_⟩
    intro c
    refine ⟨rfl, rfl, ?_⟩
    intro hcontra
    have := congrArg Request.Method hcontra
    simp [refreshRequestOf, refreshRequest, tripsRequest] at this

theorem GetTrips_refreshes_first_witness :
    (RefreshAccessToken goStdlib (failingFrom 0 []) demoClient
        [demoRefreshRequest, tripsRequest demoRefreshed]).result = .error (.non200 500)
    ∧ GetTrips goStdlib (failingFrom 0 []) demoClient
        [demoRefreshRequest, tripsRequest demoRefreshed]
      = ⟨.error (.refreshing (.non200 500)), demoClient,
         [demoRefreshRequest, tripsRequest demoRefreshed, demoRefreshRequest]⟩ :=
  ⟨by rfl,
   ((GetTrips_refreshes_first goStdlib (failingFrom 0 []) demoClient
      [demoRefreshRequest, tripsRequest demoRefreshed]).1 (.non200 500) (by rfl)).1⟩

/-! ## C7: a body that cannot be decoded -/

/-- C7, refuted as stated. The HTTP 200 refresh bodies `{"error":"invalid_grant"}`, `{}`
and `null` do not match the target schema `{accessToken, refreshToken}`, yet
`RefreshAccessToken` returns no error on them: `encoding/json` skips unknown members,
leaves missing ones at zero and ignores `null`, so the working access token `a1` is
overwritten with the empty string. -/
theorem RefreshAccessToken_accepts_body_without_token :
    RefreshAccessToken goStdlib (scripted [⟨200, [], some demoErrorBody⟩]) demoClient []
        = ⟨.ok (), { demoClient with accessToken := "" }, [demoRefreshRequest]⟩
    ∧ goStdlib.jsonParse demoErrorBody = some (.obj [("error", .str "invalid_grant")])
    ∧ demoClient.accessToken = "a1"
    ∧ RefreshAccessToken goStdlib (scripted [⟨200, [], some "\x7b\x7d"⟩]) demoClient []
        = ⟨.ok (), { demoClient with accessToken := "" }, [demoRefreshRequest]⟩
    ∧ RefreshAccessToken goStdlib (scripted [⟨200, [], some "null"⟩]) demoClient []
        = ⟨.ok (), { demoClient with accessToken := "" }, [demoRefreshRequest]⟩ :=
  ⟨by rfl, by rfl, by rfl, by rfl, by rfl⟩

/-- C7, amended. At each of the four parse points, for every HTTP 200 answer whose body
is malformed JSON or holds a value `encoding/json` cannot store into the target (a value
that is neither `null` nor an object for the three structs, neither `null` nor an array
for the trips, or a member that names a field, or an array element, of the wrong JSON
type), the operation returns the unmarshal error and passes on nothing of the value
decoded so far: after `generateClientTokens`, `exchangeCodeForToken` and
`RefreshAccessToken` the session is exactly the session before the call, and `GetTrips`
returns no trips (its session is the one its refresh left). On every other body, `null`,
`{}` and objects without the expected members among them, the operation returns no
error. -/
theorem unmarshal_failure_passes_nothing_on (L : Stdlib) (t : Transport)
    (client : DublinBikesClient) (log : List Request) (resp : Response) (body : String)
    (hs : resp.StatusCode = 200) (hb : resp.Body = some body) :
    (∀ jsonData, L.jsonMarshal clientTokensData = some jsonData →
      (L.urlParse clientTokensURL).isSome →
      t log false (clientTokensRequest jsonData) = some resp →
      badBody L (structMismatch L ClientTokensResponse.fields) body = true →
      generateClientTokens L t client log
        = ⟨.error .unmarshal, client, log ++ [clientTokensRequest jsonData]⟩)
    ∧ (∀ code, (L.urlParse (tokenURL code)).isSome →
      t log false (tokenRequest client code) = some resp →
      badBody L (structMismatch L TokenResponse.fields) body = true →
      exchangeCodeForToken L t code client log
        = ⟨.error .unmarshal, client, log ++ [tokenRequest client code]⟩)
    ∧ (∀ jsonData, L.jsonMarshal [("refreshToken", client.refreshToken)] = some jsonData →
      (L.urlParse refreshURL).isSome →
      t log false (refreshRequest jsonData) = some resp →
      badBody L (structMismatch L ClientTokensResponse.fields) body = true →
      RefreshAccessToken L t client log
        = ⟨.error .unmarshal, client, log ++ [refreshRequest jsonData]⟩)
    ∧ (∀ client0 log0, RefreshAccessToken L t client0 log0 = ⟨.ok (), client, log⟩ →
      (L.urlParse (tripsURL client)).isSome →
      t log false (tripsRequest client) = some resp →
      badBody L (sliceMismatch L Trip.fields) body = true →
      GetTrips L t client0 log0
        = ⟨.error .unmarshal, client, log ++ [tripsRequest client]⟩)
    ∧ ((∀ jsonData, L.jsonMarshal clientTokensData = some jsonData →
        (L.urlParse clientTokensURL).isSome →
        t log false (clientTokensRequest jsonData) = some resp →
        badBody L (structMismatch L ClientTokensResponse.fields) body = false →
        (generateClientTokens L t client log).result = .ok ())
      ∧ (∀ code, (L.urlParse (tokenURL code)).isSome →
        t log false (tokenRequest client code) = some resp →
        badBody L (structMismatch L TokenResponse.fields) body = false →
        (exchangeCodeForToken L t code client log).result = .ok ())
      ∧ (∀ jsonData, L.jsonMarshal [("refreshToken", client.refreshToken)] = some jsonData →
        (L.urlParse refreshURL).isSome →
        t log false (refreshRequest jsonData) = some resp →
        badBody L (structMismatch L ClientTokensResponse.fields) body = false →
        (RefreshAccessToken L t client log).result = .ok ())
      ∧ (∀ client0 log0, RefreshAccessToken L t client0 log0 = ⟨.ok (), client, log⟩ →
        (L.urlParse (tripsURL client)).isSome →
        t log false (tripsRequest client) = some resp →
        badBody L (sliceMismatch L Trip.fields) body = false →
        ∃ trips, (GetTrips L t client0 log0).result = .ok trips)) := by
  refine ⟨?_, ?_, ?_, ?_, ?_, ?_, ?_, ?_⟩
  · intro jsonData hm hu ht hbad
    rw [generateClientTokens_run L t client log jsonData resp body hm hu ht hs hb,
      jsonUnmarshal_flag, hbad]
    simp
  · intro code hu ht hbad
    rw [exchangeCodeForToken_run L t code client log resp body hu ht hs hb,
      jsonUnmarshal_flag, hbad]
    simp
  · intro jsonData hm hu ht hbad
    rw [RefreshAccessToken_run L t client log jsonData resp body hm hu ht hs hb,
      jsonUnmarshal_flag, hbad]
    simp
  · intro client0 log0 hr hu ht hbad
    rw [GetTrips_of_refresh L t client0 client log0 log hr,
      fetchTrips_run L t client log resp body hu ht hs hb, jsonUnmarshalSlice_flag, hbad]
    simp
  · intro jsonData hm hu ht hgood
    rw [generateClientTokens_run L t client log jsonData resp body hm hu ht hs hb,
      jsonUnmarshal_flag, hgood]
    simp
  · intro code hu ht hgood
    rw [exchangeCodeForToken_run L t code client log resp body hu ht hs hb,
      jsonUnmarshal_flag, hgood]
    simp
  · intro jsonData hm hu ht hgood
    rw [RefreshAccessToken_run L t client log jsonData resp body hm hu ht hs hb,
      jsonUnmarshal_flag, hgood]
    simp
  · intro client0 log0 hr hu ht hgood
    rw [GetTrips_of_refresh L t client0 client log0 log hr,
      fetchTrips_run L t client log resp body hu ht hs hb, jsonUnmarshalSlice_flag, hgood]
    simp

theorem unmarshal_failure_passes_nothing_on_witness :
    generateClientTokens goStdlib (scripted [⟨200, [], some demoTruncatedBody⟩]) demoClient []
        = ⟨.error .unmarshal, demoClient, [demoClientTokensRequest]⟩
    ∧ exchangeCodeForToken goStdlib (scripted [⟨200, [], some demoMistypedTokenBody⟩]) "c/1"
        demoClient [] = ⟨.error .unmarshal, demoClient, [tokenRequest demoClient "c/1"]⟩
    ∧ RefreshAccessToken goStdlib (scripted [⟨200, [], some "[1]"⟩]) demoClient []
        = ⟨.error .unmarshal, demoClient, [demoRefreshRequest]⟩
    ∧ GetTrips goStdlib
        (scripted [⟨200, [], some demoRefreshBody⟩, ⟨200, [], some demoMistypedTripsBody⟩])
        demoClient []
        = ⟨.error .unmarshal, demoRefreshed, [demoRefreshRequest, tripsRequest demoRefreshed]⟩ :=
  ⟨(unmarshal_failure_passes_nothing_on goStdlib (scripted [⟨200, [], some demoTruncatedBody⟩])
      demoClient [] ⟨200, [], some demoTruncatedBody⟩ demoTruncatedBody (by rfl) (by rfl)).1
      _ (by rfl) (by rfl) (by rfl) (by rfl),
   (unmarshal_failure_passes_nothing_on goStdlib
      (scripted [⟨200, [], some demoMistypedTokenBody⟩])
      demoClient [] ⟨200, [], some demoMistypedTokenBody⟩ demoMistypedTokenBody (by rfl)
      (by rfl)).2.1 "c/1" (by rfl) (by rfl) (by rfl),
   (unmarshal_failure_passes_nothing_on goStdlib (scripted [⟨200, [], some "[1]"⟩])
      demoClient [] ⟨200, [], some "[1]"⟩ "[1]" (by rfl) (by rfl)).2.2.1
      _ (by rfl) (by rfl) (by rfl) (by rfl),
   (unmarshal_failure_passes_nothing_on goStdlib
      (scripted [⟨200, [], some demoRefreshBody⟩, ⟨200, [], some demoMistypedTripsBody⟩])
      demoRefreshed [demoRefreshRequest] ⟨200, [], some demoMistypedTripsBody⟩
      demoMistypedTripsBody (by rfl) (by rfl)).2.2.2.1
      demoClient [] (by rfl) (by rfl) (by rfl) (by rfl)⟩

/-! ## C8: what a returned trip is made of -/

/-- C8, refuted as stated. On the HTTP 200 trips body `[{}, null]` the fetch does not
fail: `GetTrips` returns two trips, none of whose fields was supplied by its element. -/
theorem GetTrips_returns_trips_with_no_field_supplied :
    (GetTrips goStdlib
      (scripted [⟨200, [], some demoRefreshBody⟩, ⟨200, [], some "[\x7b\x7d, null]"⟩])
      demoClient []).result = .ok [Trip.zero, Trip.zero]
    ∧ goStdlib.jsonParse "[\x7b\x7d, null]" = some (.arr [.obj [], .null]) :=
  ⟨by rfl, by rfl⟩

/-- C8, amended. For every HTTP 200 answer to the trips request, `GetTrips` either fails
entirely (exactly when the body is malformed, is neither `null` nor an array, or has an
element or a field of the wrong JSON type) or returns one trip per array element, in
order (none for the body `null`); an element that is `{}` or `null` is decoded to the
zero `Trip`, so a returned trip need not have been supplied all its fields. -/
theorem GetTrips_all_or_nothing (L : Stdlib) (t : Transport)
    (client c1 : DublinBikesClient) (log log1 : List Request) (resp : Response)
    (body : String)
    (hr : RefreshAccessToken L t client log = ⟨.ok (), c1, log1⟩)
    (hu : (L.urlParse (tripsURL c1)).isSome)
    (ht : t log1 false (tripsRequest c1) = some resp)
    (hs : resp.StatusCode = 200) (hb : resp.Body = some body) :
    (((GetTrips L t client log).result = .error .unmarshal
        ∧ badBody L (sliceMismatch L Trip.fields) body = true)
      ∨ ((GetTrips L t client log).result = .ok [] ∧ L.jsonParse body = some .null)
      ∨ ∃ elems, L.jsonParse body = some (.arr elems)
          ∧ (∀ e ∈ elems, structMismatch L Trip.fields e = false)
          ∧ (GetTrips L t client log).result = .ok (elems.map (tripOf L)))
    ∧ tripOf L (.obj []) = Trip.zero ∧ tripOf L .null = Trip.zero := by
  refine ⟨?_, by simp [tripOf, decodeValue, decodeObject], by simp [tripOf, decodeValue]⟩
  rw [GetTrips_of_refresh L t client c1 log log1 hr,
    fetchTrips_run L t c1 log1 resp body hu ht hs hb]
  cases hbad : badBody L (sliceMismatch L Trip.fields) body with
  | true => left; simp [jsonUnmarshalSlice_flag, hbad]
  | false =>
    right
    have hflag := jsonUnmarshalSlice_flag L Trip.fields Trip.zero body
    rw [hbad] at hflag
    simp only [hflag]
    unfold badBody at hbad
    cases hj : L.jsonParse body with
    | none => simp [hj] at hbad
    | some v =>
      rw [hj] at hbad
      cases v with
      | null => left; simp [jsonUnmarshalSlice, hj]
      | arr es =>
        right
        refine ⟨es, rfl, ?_, ?_⟩
        · simpa [sliceMismatch] using hbad
        · simp [jsonUnmarshalSlice, hj, tripOf]
      | bool b => simp [sliceMismatch] at hbad
      | num n => simp [sliceMismatch] at hbad
      | str s => simp [sliceMismatch] at hbad
      | obj ms => simp [sliceMismatch] at hbad

theorem GetTrips_all_or_nothing_witness :
    RefreshAccessToken goStdlib
        (scripted [⟨200, [], some demoRefreshBody⟩, ⟨200, [], some "[\x7b\x7d, null]"⟩])
        demoClient [] = ⟨.ok (), demoRefreshed, [demoRefreshRequest]⟩
    ∧ (goStdlib.urlParse (tripsURL demoRefreshed)).isSome
    ∧ ((((GetTrips goStdlib
          (scripted [⟨200, [], some demoRefreshBody⟩, ⟨200, [], some "[\x7b\x7d, null]"⟩])
          demoClient []).result = .error .unmarshal
        ∧ badBody goStdlib (sliceMismatch goStdlib Trip.fields) "[\x7b\x7d, null]" = true)
      ∨ ((GetTrips goStdlib
          (scripted [⟨200, [], some demoRefreshBody⟩, ⟨200, [], some "[\x7b\x7d, null]"⟩])
          demoClient []).result = .ok []
        ∧ goStdlib.jsonParse "[\x7b\x7d, null]" = some .null)
      ∨ ∃ elems, goStdlib.jsonParse "[\x7b\x7d, null]" = some (.arr elems)
          ∧ (∀ e ∈ elems, structMismatch goStdlib Trip.fields e = false)
          ∧ (GetTrips goStdlib
              (scripted [⟨200, [], some demoRefreshBody⟩,
                ⟨200, [], some "[\x7b\x7d, null]"⟩])
              demoClient []).result = .ok (elems.map (tripOf goStdlib)))
      ∧ tripOf goStdlib (.obj []) = Trip.zero ∧ tripOf goStdlib .null = Trip.zero) :=
  ⟨by rfl, by rfl,
   GetTrips_all_or_nothing goStdlib
     (scripted [⟨200, [], some demoRefreshBody⟩, ⟨200, [], some "[\x7b\x7d, null]"⟩])
     demoClient demoRefreshed [] [demoRefreshRequest] ⟨200, [], some "[\x7b\x7d, null]"⟩
     "[\x7b\x7d, null]" (by rfl) (by rfl) (by rfl) (by rfl) (by rfl)⟩

/-! ## C9: the OAuth extras -/

/-- C9. The OAuth refresh token, token type, scope and expiry that
`exchangeCodeForToken` stores are never read again: for any two sessions that differ at
most in those four fields, any transport and any log, `RefreshAccessToken` and `GetTrips`
return identical results, issue identical requests, and leave sessions that again differ
at most in those four fields. The refresh request, when one is issued, carries the
marshalled map `{refreshToken: <client refresh token>}`, made from the session field
`refreshToken` that step 1 set, not from the OAuth refresh token. -/
theorem oauth_extras_are_never_read (L : Stdlib) (t : Transport)
    (c1 c2 : DublinBikesClient) (log : List Request) (h : sameButOAuthExtras c1 c2) :
    ((RefreshAccessToken L t c1 log).result = (RefreshAccessToken L t c2 log).result
      ∧ (RefreshAccessToken L t c1 log).log = (RefreshAccessToken L t c2 log).log
      ∧ sameButOAuthExtras (RefreshAccessToken L t c1 log).client
          (RefreshAccessToken L t c2 log).client)
    ∧ ((GetTrips L t c1 log).result = (GetTrips L t c2 log).result
      ∧ (GetTrips L t c1 log).log = (GetTrips L t c2 log).log
      ∧ sameButOAuthExtras (GetTrips L t c1 log).client (GetTrips L t c2 log).client)
    ∧ ((RefreshAccessToken L t c1 log).log = log
      ∨ ∃ jsonData, L.jsonMarshal [("refreshToken", c1.refreshToken)] = some jsonData
          ∧ (RefreshAccessToken L t c1 log).log = log ++ [refreshRequest jsonData]) := by
  have hc := sameButOAuthExtras_eq h
  refine ⟨?_, ?_, RefreshAccessToken_body L t c1 log⟩
  · rw [hc, RefreshAccessToken_setOAuthExtras]
    exact ⟨rfl, rfl, sameButOAuthExtras_setOAuthExtras _ _ _ _ _⟩
  · rw [hc, GetTrips_setOAuthExtras]
    exact ⟨rfl, rfl, sameButOAuthExtras_setOAuthExtras _ _ _ _ _⟩

theorem oauth_extras_are_never_read_witness :
    sameButOAuthExtras demoClient demoClientOtherExtras
    ∧ (GetTrips goStdlib
        (scripted [⟨200, [], some demoRefreshBody⟩, ⟨200, [], some demoTripsBody⟩])
        demoClient []).log
      = (GetTrips goStdlib
        (scripted [⟨200, [], some demoRefreshBody⟩, ⟨200, [], some demoTripsBody⟩])
        demoClientOtherExtras []).log
    ∧ (GetTrips goStdlib
        (scripted [⟨200, [], some demoRefreshBody⟩, ⟨200, [], some demoTripsBody⟩])
        demoClient []).log = [demoRefreshRequest, tripsRequest demoRefreshed] :=
  ⟨⟨rfl, rfl, rfl, rfl, rfl, rfl⟩,
   (oauth_extras_are_never_read goStdlib
     (scripted [⟨200, [], some demoRefreshBody⟩, ⟨200, [], some demoTripsBody⟩])
     demoClient demoClientOtherExtras [] ⟨rfl, rfl, rfl, rfl, rfl, rfl⟩).2.1.2.1,
   by rfl⟩

/-! ## C10: the token that authorizes the trips request -/

/-- C10. For every session and every successful refresh answer `{accessToken: Z}` inside
a `GetTrips` call (the trips URL being accepted by `http.NewRequest`), the request that
follows the refresh request is a GET to
`https://api.cyclocity.fr/contracts/dublin/accounts/<accountID>/trips` whose
`Authorization` header is `Taknv1 ` followed by `Z`, the token minted by the refresh of
that same call whatever the working access token was before, and whose `Identity` header
is the id token of the session. -/
theorem GetTrips_authorizes_with_fresh_token (L : Stdlib) (t : Transport)
    (client : DublinBikesClient) (log : List Request) (jsonData : String) (resp : Response)
    (body : String) (ms : List (String × JSON)) (Z : String)
    (hm : L.jsonMarshal [("refreshToken", client.refreshToken)] = some jsonData)
    (hu : (L.urlParse refreshURL).isSome)
    (ht : t log false (refreshRequest jsonData) = some resp)
    (hs : resp.StatusCode = 200) (hb : resp.Body = some body)
    (hj : L.jsonParse body = some (.obj ms))
    (hms : ms = [("accessToken", .str Z)]
      ∨ ∃ R, ms = [("accessToken", .str Z), ("refreshToken", .str R)]
        ∨ ms = [("refreshToken", .str R), ("accessToken", .str Z)])
    (hut : (L.urlParse (tripsURL client)).isSome) :
    ∃ req, (GetTrips L t client log).log = log ++ [refreshRequest jsonData, req]
      ∧ req.Method = "GET"
      ∧ req.URL
          = "https://api.cyclocity.fr/contracts/dublin/accounts/" ++ client.accountID ++ "/trips"
      ∧ Header.Get req.Header "Authorization" = "Taknv1 " ++ Z
      ∧ Header.Get req.Header "Identity" = client.oauthIDToken
      ∧ req.Body = none := by
  have hr := RefreshAccessToken_of_accessToken L t client log jsonData resp body ms Z
    hm hu ht hs hb hj hms
  refine ⟨tripsRequest { client with accessToken := Z }, ?_, rfl, rfl, ?_, ?_, rfl⟩
  · have hut2 : (L.urlParse (tripsURL { client with accessToken := Z })).isSome := hut
    rw [GetTrips_of_refresh L t client _ log _ hr,
      fetchTrips_log L t { client with accessToken := Z } _ hut2]
    simp
  · simp [tripsRequest, Header.Get]
  · simp [tripsRequest, Header.Get]

theorem GetTrips_authorizes_with_fresh_token_witness :
    goStdlib.jsonMarshal [("refreshToken", demoClient.refreshToken)]
        = some "\x7b\"refreshToken\":\"r1\"\x7d"
    ∧ (goStdlib.urlParse (tripsURL demoClient)).isSome
    ∧ demoClient.accessToken = "a1"
    ∧ ∃ req, (GetTrips goStdlib
          (scripted [⟨200, [], some demoRefreshBody⟩, ⟨200, [], some demoTripsBody⟩])
          demoClient []).log = [] ++ [demoRefreshRequest, req]
        ∧ req.Method = "GET"
        ∧ req.URL = "https://api.cyclocity.fr/contracts/dublin/accounts/" ++ "acc" ++ "/trips"
        ∧ Header.Get req.Header "Authorization" = "Taknv1 " ++ "Z"
        ∧ Header.Get req.Header "Identity" = "C0"
        ∧ req.Body = none :=
  ⟨by rfl, by rfl, by rfl,
   GetTrips_authorizes_with_fresh_token goStdlib
     (scripted [⟨200, [], some demoRefreshBody⟩, ⟨200, [], some demoTripsBody⟩])
     demoClient [] "\x7b\"refreshToken\":\"r1\"\x7d" ⟨200, [], some demoRefreshBody⟩
     demoRefreshBody [("refreshToken", .str "other"), ("accessToken", .str "Z")] "Z"
     (by rfl) (by rfl) (by rfl) (by rfl) (by rfl) (by rfl)
     (Or.inr ⟨"other", Or.inr rfl⟩) (by rfl)⟩

end DublinBikes
